import Mathlib

/-!
Verification of the LVGenerator GAEB codec core (reader, writer, phase
rules, phase converter, Preisspiegel aggregation) against its
natural-language specification.  The Python sources under
`src/lvgenerator` are shallowly embedded: dataclasses become structures,
`decimal.Decimal` values become exact rationals (`Dec`), in-place
mutation becomes explicit value passing (plus an explicit object store
for the frame-effect claim), and exceptions become `Except`.
-/

namespace LVGen

/-! ## Decimal model

Python `decimal.Decimal` values occurring in GAEB files are finite
decimal numbers; arithmetic (`+`, `*`, and the one division in the
Preisspiegel average) is carried out at the default context precision
of 28 significant digits, ample for the magnitudes this program
handles.  We model values as exact rationals (division exactly).  `quantize(Decimal("0.01"))` uses the default
ROUND_HALF_EVEN rounding mode.  The string rendering of a `Decimal`
(exponent-aware in Python) is abstracted by `Dec.repr`; no claim
depends on the rendered digits. -/

abbrev Dec := ℚ

/-- Floor of a rational as an integer, computably (`num.fdiv den`;
denominators of `Rat` are positive and the fraction is normalised). -/
def Dec.floorZ (q : Dec) : ℤ := q.num.fdiv q.den

/-- Round a rational to the nearest integer, ties to even
(banker's rounding, Python decimal ROUND_HALF_EVEN). -/
def roundHalfEven (q : Dec) : ℤ :=
  let f := Dec.floorZ q
  let r := q - (f : ℚ)
  if r < 1/2 then f
  else if 1/2 < r then f + 1
  else if f % 2 = 0 then f else f + 1

/-- Embedding of `value.quantize(Decimal("0.01"))` with the default
ROUND_HALF_EVEN rounding: round to 2 decimal places. -/
def quantize2 (q : Dec) : Dec := (roundHalfEven (q * 100) : ℚ) / 100

/-- Abstract rendering of a decimal for XML text content (Python
`str(decimal)`); the exact digit string is irrelevant to every claim. -/
def Dec.repr (q : Dec) : String := toString q.num ++ "/" ++ toString q.den

/-! ### Python `Decimal(text)` parsing

`GAEBReader._decimal` calls `Decimal(text)` on the stripped element
text and maps `InvalidOperation` to `None`.  We embed the numeric
string grammar `[sign] (digits [. digits] | . digits) [(e|E) [sign]
digits]`.  The special values `NaN`/`Infinity` (accepted by Python but
outside the finite-decimal domain of this file format) and underscore
digit grouping are outside the model; no claim depends on them. -/

/-- Split a leading run of ASCII digits off a character list. -/
def spanDigits : List Char → (List Char × List Char)
  | [] => ([], [])
  | c :: cs =>
    if c.isDigit then
      let (ds, rest) := spanDigits cs
      (c :: ds, rest)
    else ([], c :: cs)

/-- Numeric value of a digit run. -/
def digitsVal (ds : List Char) : ℕ :=
  ds.foldl (fun acc c => 10 * acc + (c.toNat - 48)) 0

/-- Parse the optional exponent suffix and require end of input. -/
def parseExpSuffix (cs : List Char) : Option ℤ :=
  match cs with
  | [] => some 0
  | c :: rest =>
    if c = 'e' ∨ c = 'E' then
      let (sgn, rest2) :=
        match rest with
        | '+' :: r => ((1 : ℤ), r)
        | '-' :: r => ((-1 : ℤ), r)
        | r => ((1 : ℤ), r)
      let (ds, rest3) := spanDigits rest2
      if ds = [] ∨ rest3 ≠ [] then none
      else some (sgn * (digitsVal ds : ℤ))
    else none

/-- Embedding of Python `Decimal(text)` on finite numeric strings:
`some` value on success, `none` where Python raises
`InvalidOperation`. -/
def pyDecimalOfString (s : String) : Option Dec :=
  let cs := s.toList
  let (sgn, cs1) : ℚ × List Char :=
    match cs with
    | '+' :: r => (1, r)
    | '-' :: r => (-1, r)
    | r => (1, r)
  let (intDs, cs2) := spanDigits cs1
  let (fracDs, cs3) :=
    match cs2 with
    | '.' :: r => spanDigits r
    | r => ([], r)
  let hadPoint := cs2 ≠ [] ∧ cs2.head? = some '.'
  if intDs = [] ∧ (¬ hadPoint ∨ fracDs = []) then none
  else
    match parseExpSuffix cs3 with
    | none => none
    | some e =>
      let mantissa : ℚ :=
        (digitsVal intDs : ℚ) + (digitsVal fracDs : ℚ) / (10 : ℚ) ^ fracDs.length
      some (sgn * mantissa * (10 : ℚ) ^ (e : ℤ))

/-- Python `str.strip()`: drop leading and trailing whitespace
(modeled over the character list; `String.trim` itself is not
kernel-reducible). -/
def pyStrip (s : String) : String :=
  String.mk (((s.toList.dropWhile Char.isWhitespace).reverse.dropWhile
    Char.isWhitespace).reverse)

/-! ## Phases and phase rules (`constants.py`, `gaeb/phase_rules.py`) -/

/-- GAEB phase enum (`constants.GAEBPhase`). -/
inductive GAEBPhase
  | X81 | X82 | X83 | X84 | X85 | X86
  deriving DecidableEq, Repr

/-- The numeric discriminator carried by each phase member. -/
def GAEBPhase.dpValue : GAEBPhase → ℕ
  | .X81 => 81
  | .X82 => 82
  | .X83 => 83
  | .X84 => 84
  | .X85 => 85
  | .X86 => 86

/-- Frozen dataclass `PhaseRules` (phase_rules.py lines 6-14).  Note:
these are the only fields the dataclass declares; in particular there
is no `has_bid_comments` field, although `writer.py` line 440 and
`tests/test_certification.py` lines 197-211 access one. -/
structure PhaseRules where
  has_quantities : Bool
  has_prices : Bool
  has_totals : Bool
  allows_not_offered : Bool
  dp_label_de : String
  dp_label_en : String
  deriving DecidableEq, Repr

/-- The static `PHASE_RULES` table / `get_rules` lookup. -/
def getRules : GAEBPhase → PhaseRules
  | .X81 => ⟨false, false, false, false, "Leistungsbeschreibung", "Service Description"⟩
  | .X82 => ⟨true, true, true, false, "Kostenansatz", "Cost Estimate"⟩
  | .X83 => ⟨true, false, false, false, "Angebotsaufforderung", "Tender Request"⟩
  | .X84 => ⟨true, true, true, true, "Angebotsabgabe", "Bid Submission"⟩
  | .X85 => ⟨true, true, true, false, "Nebenangebot", "Alternative Bid"⟩
  | .X86 => ⟨true, true, true, false, "Auftragserteilung", "Contract Award"⟩

/-- Python attribute lookup on a `PhaseRules` instance.  A frozen
dataclass exposes exactly its declared fields; accessing any other
attribute raises `AttributeError`.  Returning `none` models that
raise. -/
def PhaseRules.lookupBoolAttr (r : PhaseRules) (name : String) : Option Bool :=
  if name = "has_quantities" then some r.has_quantities
  else if name = "has_prices" then some r.has_prices
  else if name = "has_totals" then some r.has_totals
  else if name = "allows_not_offered" then some r.allows_not_offered
  else none

/-! ## XML tree model

lxml `_Element` values are modeled as finite trees.  A tree node
carries its local tag name, attributes, leading text, tail text (the
text following the element inside its parent, `elem.tail` in lxml) and
the ordered child list.  Namespace URIs are constant within one
document and every lookup in the source uses the single
document namespace, so tags are modeled by their local names.
Serialized XML strings held in `*_html` model fields are represented
by the trees they denote (lxml `tostring`/`fromstring` are mutually
inverse on well-formed fragments), and `deepcopy` of an element is the
identity on tree values. -/

inductive XElem where
  | mk
    (tag : String)
    (attrs : List (String × String))
    (text : Option String)
    (tail : Option String)
    (children : List XElem)

def XElem.tag : XElem → String
  | .mk t _ _ _ _ => t

def XElem.attrs : XElem → List (String × String)
  | .mk _ a _ _ _ => a

def XElem.text : XElem → Option String
  | .mk _ _ tx _ _ => tx

def XElem.tail : XElem → Option String
  | .mk _ _ _ tl _ => tl

def XElem.children : XElem → List XElem
  | .mk _ _ _ _ cs => cs

/-- Attribute lookup, `elem.get(name, "")`. -/
def XElem.getAttr (e : XElem) (name : String) : String :=
  match e.attrs.find? (fun p => p.1 = name) with
  | some p => p.2
  | none => ""

/-! ## Document model (`models/*.py`)

Each Python dataclass becomes a structure with the same fields and
defaults.  A few attributes that the reader adds dynamically to
non-frozen dataclass instances (and that the writer reads back) are
declared here as ordinary fields; they are marked `dynamic attribute`
in comments. -/

/-- Python `datetime.date` value. -/
structure PyDate where
  year : ℤ
  month : ℕ
  day : ℕ
  deriving DecidableEq

/-- Python `datetime.time` value. -/
structure PyTime where
  hour : ℕ
  minute : ℕ
  second : ℕ
  deriving DecidableEq

/-- Dataclass `AddText` (models/text_types.py).  The `*_html` fields
hold serialized XML, modeled as trees (`none` for the empty string). -/
structure AddText where
  outline_text : String := ""
  outline_html : Option XElem := none
  detail_text : String := ""
  detail_html : Option XElem := none

/-- Dataclass `CtlgAssignment` (models/item.py). -/
structure CtlgAssignment where
  ctlg_id : String := ""
  ctlg_code : String := ""
  deriving DecidableEq

/-- Dataclass `ItemDescription` (models/item.py). -/
structure ItemDescription where
  outline_text : String := ""
  detail_text : String := ""
  detail_html : Option XElem := none
  outline_html : Option XElem := none
  stl_no : String := ""
  compl_tsa : String := ""
  compl_tsb : String := ""
  stlb_bau_raw : Option XElem := none
  text_complements_raw : List XElem := []
  detail_txt_raw : Option XElem := none
  perf_descr_raw : Option XElem := none

/-- Dataclass `SubDescription` (models/item.py). -/
structure SubDescription where
  sub_d_no : String := ""
  qty : Option Dec := none
  qty_spec : String := ""
  qu : String := ""
  description : Option ItemDescription := none

/-- One entry of `Item.qty_splits` (a loosely typed `dict` in the
source; the keys ever stored or read are modeled as optional
fields). -/
structure QtySplitBag where
  qty : Option Dec := none
  ctlg_assigns : Option (List (String × String)) := none
  ctlg_id : Option String := none
  ctlg_code : Option String := none
  deriving DecidableEq

/-- Dataclass `Item` (models/item.py).  `up_components` is the
`dict[int, Decimal]` keyed 1..6, modeled as an association list.
`ref_descr` is annotated `bool` in the source but the reader stores
strings in it and the writer only tests truthiness and serializes the
string, so it is modeled as a string whose empty value is falsy.
`markup_value` is a dynamic attribute set by the reader together with
`has_markup`. -/
structure Item where
  id : String := ""
  rno_part : String := ""
  qty : Option Dec := none
  qty_tbd : Bool := false
  qu : String := ""
  up : Option Dec := none
  up_components : List (ℕ × Dec) := []
  discount_pcnt : Option Dec := none
  it : Option Dec := none
  vat : Option Dec := none
  not_appl : Bool := false
  not_offered : Bool := false
  hour_it : Bool := false
  lump_sum_item : Bool := false
  pred_qty : Option Dec := none
  description : ItemDescription := {}
  formula : String := ""
  use_calculated_qty : Bool := false
  provis : String := ""
  aln_group_no : String := ""
  aln_ser_no : String := ""
  free_qty : Bool := false
  key_it : Bool := false
  markup_it : Bool := false
  surcharge_type : String := ""
  surcharge_refs : List String := []
  is_markup_item : Bool := false
  markup_type : String := ""
  markup_sub_qty_refs : List String := []
  it_markup : Option Dec := none
  has_markup : Bool := false
  markup_value : Option Dec := none
  ref_descr : String := ""
  ref_rno : String := ""
  ref_rno_idref : String := ""
  ref_perf_no : String := ""
  ref_perf_no_idref : String := ""
  sum_descr : Bool := false
  sub_descriptions : List SubDescription := []
  ctlg_assignments : List CtlgAssignment := []
  up_bkdn : Bool := false
  qty_splits : List QtySplitBag := []
  add_texts : List AddText := []
  bid_comments : List String := []
  text_compls : List String := []

/-- Dataclass `Totals` (models/boq.py).  `tot_after_disc`, `vat` and
`total_lsum` are dynamic attributes set by `GAEBReader._parse_totals`
and read back by `GAEBWriter._write_totals`. -/
structure Totals where
  total : Dec := 0
  discount_pcnt : Option Dec := none
  discount_amt : Option Dec := none
  total_net : Option Dec := none
  vat_amount : Option Dec := none
  total_gross : Option Dec := none
  tot_after_disc : Option Dec := none
  vat : Option Dec := none
  total_lsum : Option Dec := none
  deriving DecidableEq

/-- Dataclass `BoQCategory` (models/category.py); recursive through
`subcategories`, hence an inductive with one constructor. -/
inductive BoQCategory where
  | mk
    (id : String)
    (rno_part : String)
    (label : String)
    (label_html : Option XElem)
    (subcategories : List BoQCategory)
    (items : List Item)
    (add_texts : List AddText)
    (exec_descr : String)
    (exec_descr_html : Option XElem)
    (aln_b_group_no : String)
    (aln_b_ser_no : String)
    (remarks_raw : List XElem)
    (itemlist_remarks_raw : List XElem)
    (perf_descrs_raw : List XElem)
    (totals : Option Totals)

def BoQCategory.id : BoQCategory → String
  | .mk v _ _ _ _ _ _ _ _ _ _ _ _ _ _ => v

def BoQCategory.rno_part : BoQCategory → String
  | .mk _ v _ _ _ _ _ _ _ _ _ _ _ _ _ => v

def BoQCategory.label : BoQCategory → String
  | .mk _ _ v _ _ _ _ _ _ _ _ _ _ _ _ => v

def BoQCategory.label_html : BoQCategory → Option XElem
  | .mk _ _ _ v _ _ _ _ _ _ _ _ _ _ _ => v

def BoQCategory.subcategories : BoQCategory → List BoQCategory
  | .mk _ _ _ _ v _ _ _ _ _ _ _ _ _ _ => v

def BoQCategory.items : BoQCategory → List Item
  | .mk _ _ _ _ _ v _ _ _ _ _ _ _ _ _ => v

def BoQCategory.add_texts : BoQCategory → List AddText
  | .mk _ _ _ _ _ _ v _ _ _ _ _ _ _ _ => v

def BoQCategory.exec_descr : BoQCategory → String
  | .mk _ _ _ _ _ _ _ v _ _ _ _ _ _ _ => v

def BoQCategory.exec_descr_html : BoQCategory → Option XElem
  | .mk _ _ _ _ _ _ _ _ v _ _ _ _ _ _ => v

def BoQCategory.aln_b_group_no : BoQCategory → String
  | .mk _ _ _ _ _ _ _ _ _ v _ _ _ _ _ => v

def BoQCategory.aln_b_ser_no : BoQCategory → String
  | .mk _ _ _ _ _ _ _ _ _ _ v _ _ _ _ => v

def BoQCategory.remarks_raw : BoQCategory → List XElem
  | .mk _ _ _ _ _ _ _ _ _ _ _ v _ _ _ => v

def BoQCategory.itemlist_remarks_raw : BoQCategory → List XElem
  | .mk _ _ _ _ _ _ _ _ _ _ _ _ v _ _ => v

def BoQCategory.perf_descrs_raw : BoQCategory → List XElem
  | .mk _ _ _ _ _ _ _ _ _ _ _ _ _ v _ => v

def BoQCategory.totals : BoQCategory → Option Totals
  | .mk _ _ _ _ _ _ _ _ _ _ _ _ _ _ v => v

/-- Replace the `subcategories` and `items` of a category, leaving all
other fields unchanged (the only in-place updates the phase converter
performs on a category). -/
def BoQCategory.withChildren (c : BoQCategory) (subs : List BoQCategory)
    (its : List Item) : BoQCategory :=
  match c with
  | .mk i r l lh _ _ at_ ed edh g s rr ir pr t =>
    .mk i r l lh subs its at_ ed edh g s rr ir pr t

/-- Dataclass `BoQBkdn` (models/boq.py). -/
structure BoQBkdn where
  type : String := "BoQLevel"
  length : ℕ := 2
  numeric : Bool := true
  label : String := ""
  alignment : Option String := none
  deriving DecidableEq

/-- Dataclass `Catalog` (models/boq.py).  `ctlg_type` is a dynamic
attribute set by the reader and read by the writer. -/
structure Catalog where
  ctlg_id : String := ""
  ctlg_name : String := ""
  ctlg_type : String := ""
  deriving DecidableEq

/-- Dataclass `BoQInfo` (models/boq.py). -/
structure BoQInfo where
  name : String := ""
  label : String := ""
  date : Option PyDate := none
  outline_complete : String := "AllTxt"
  breakdowns : List BoQBkdn := []
  catalogs : List Catalog := []
  no_up_comps : ℕ := 0
  up_comp_labels : List (ℕ × String) := []
  totals : Option Totals := none
  add_texts : List AddText := []

/-- Dataclass `BoQ` (models/boq.py).  `remarks_raw` is a dynamic
attribute set by `GAEBReader._parse_boq`. -/
structure BoQ where
  id : String := ""
  info : BoQInfo := {}
  categories : List BoQCategory := []
  remarks_raw : List XElem := []

/-- Dataclass `Address` (models/address.py). -/
structure Address where
  name1 : String := ""
  name2 : String := ""
  name3 : String := ""
  name4 : String := ""
  street : String := ""
  pcode : String := ""
  city : String := ""
  country : String := ""
  contact : String := ""
  phone : String := ""
  fax : String := ""
  email : String := ""
  deriving DecidableEq

/-- Dataclass `Contractor` (models/address.py). -/
structure Contractor where
  address : Option Address := none
  dp_no : String := ""
  award_no : String := ""
  accts_pay_no : String := ""
  has_dp_no : Bool := false
  has_award_no : Bool := false
  has_accts_pay_no : Bool := false
  deriving DecidableEq

/-- Dataclass `GAEBInfo` (models/project.py). -/
structure GAEBInfo where
  version : String := "3.3"
  vers_date : String := "2021-05"
  date : Option PyDate := none
  time : Option PyTime := none
  prog_system : String := "LVGenerator"
  prog_name : String := "LVGenerator v0.1.0"
  deriving DecidableEq

/-- Dataclass `PrjInfo` (models/project.py). -/
structure PrjInfo where
  name : String := ""
  label : String := ""
  description : String := ""
  currency : String := ""
  currency_label : String := ""
  bid_comm_perm : Bool := false
  deriving DecidableEq

/-- Dataclass `AwardInfo` (models/project.py). -/
structure AwardInfo where
  boq_id : String := ""
  currency : String := "EUR"
  currency_label : String := "Euro"
  cat : String := ""
  open_date : String := ""
  open_time : String := ""
  eval_end : String := ""
  subm_loc : String := ""
  cnst_start : String := ""
  cnst_end : String := ""
  contr_no : String := ""
  contr_date : String := ""
  accept_type : String := ""
  warr_dur : String := ""
  warr_unit : String := ""
  award_no : String := ""
  deriving DecidableEq

/-- Dataclass `GAEBProject` (models/project.py). -/
structure GAEBProject where
  gaeb_info : GAEBInfo := {}
  prj_info : PrjInfo := {}
  award_info : AwardInfo := {}
  owner : Option Address := none
  contractor : Option Contractor := none
  phase : Option GAEBPhase := none
  boq : Option BoQ := none
  award_add_texts : List AddText := []
  gaeb_add_texts : List AddText := []

/-! ## Computed item values (`models/item.py`)

The formula evaluation mini-language (`models/formula_evaluator.py`)
is, per the specification, an external collaborator treated as an
opaque function from strings to an optional decimal; it is passed in
as a parameter `evalF` wherever `Item.get_effective_qty` needs it. -/

/-- Method `Item.get_effective_qty`: the formula-evaluated value when
`use_calculated_qty` is set, else the stored `qty`. -/
def Item.getEffectiveQty (evalF : String → Option Dec) (i : Item) : Option Dec :=
  if i.use_calculated_qty then evalF i.formula else i.qty

/-- Method `Item.calculate_total`: `effective_qty × up` quantized to 2
decimal places when both are present, else `None`. -/
def Item.calculateTotal (evalF : String → Option Dec) (i : Item) : Option Dec :=
  match i.getEffectiveQty evalF, i.up with
  | some q, some u => some (quantize2 (q * u))
  | _, _ => none

/-! ## XML navigation helpers (lxml `find` / `findall` semantics) -/

/-- lxml `parent.find("g:Tag", ns)`: first direct child with the tag. -/
def XElem.findChild (e : XElem) (tag : String) : Option XElem :=
  e.children.find? (fun c => c.tag = tag)

/-- lxml `find` on a slash-separated path of tags. -/
def XElem.findPath (e : XElem) : List String → Option XElem
  | [] => some e
  | t :: ts =>
    match e.findChild t with
    | some c => c.findPath ts
    | none => none

/-- lxml `parent.findall("g:Tag", ns)`: all direct children with the
tag, in document order. -/
def XElem.findAll (e : XElem) (tag : String) : List XElem :=
  e.children.filter (fun c => c.tag = tag)

theorem XElem.sizeOf_lt_of_mem_children {c e : XElem} (h : c ∈ e.children) :
    sizeOf c < sizeOf e := by
  cases e with
  | mk t a tx tl cs =>
    simp only [XElem.children] at h
    have := List.sizeOf_lt_of_mem h
    simp only [XElem.mk.sizeOf_spec]
    omega

/-- Preorder traversal `element.iter()`: the element itself followed by
all descendants in document order. -/
def XElem.iterAll (e : XElem) : List XElem :=
  e :: (e.children.attach.map (fun c => XElem.iterAll c.1)).flatten
termination_by sizeOf e
decreasing_by
  exact XElem.sizeOf_lt_of_mem_children c.2

/-- Text content of a subtree as produced by
`etree.tostring(e, method="text")` without the element's own tail:
the element's text followed by, for each child, the child's full text
content and its tail (lxml serializes tails of nested elements). -/
def XElem.allText (e : XElem) : String :=
  e.text.getD "" ++
    String.join (e.children.attach.map
      (fun c => XElem.allText c.1 ++ c.1.tail.getD ""))
termination_by sizeOf e
decreasing_by
  exact XElem.sizeOf_lt_of_mem_children c.2

/-! ## Text extraction (`gaeb/text_parser.py`) -/

/-- The line assembled for one paragraph element in
`extract_plain_text`: concatenation of `child.text` and `child.tail`
over `p_elem.iter()`. -/
def pLineText (p : XElem) : String :=
  String.join (p.iterAll.map (fun c => c.text.getD "" ++ c.tail.getD ""))

/-- Function `extract_plain_text`: joins the stripped nonempty lines of
all paragraph descendants; when there are none, falls back to the raw
text content of the element.  (Tags are local names in this model, so
the source's `tag.endswith("}p") or tag == "p"` test is `tag = "p"`.) -/
def extractPlainText (element : XElem) : String :=
  let parts :=
    ((element.iterAll.filter (fun el => el.tag = "p")).map
      (fun p => pyStrip (pLineText p))).filter (fun l => l ≠ "")
  if parts = [] then
    (element.text.getD "" ++
      String.join (element.children.map
        (fun c => c.allText ++ c.tail.getD "")))
      |> pyStrip
  else
    String.intercalate "\n" parts

/-- Function `extract_html`: serializes the element; in the tree model
the serialized form is the tree itself. -/
def extractHtml (element : XElem) : XElem := element

/-! ## Reader (`gaeb/reader.py`)

The parse functions below are total: every Python operation they
perform is non-raising (`find` returns `None`, `get` has a default)
except the `Decimal(...)` call inside `_decimal`, whose
`InvalidOperation` is caught there and mapped to `None`.  Totality of
the embedding is the shallow form of `read` not raising on any
well-formed document. -/

/-- Method `GAEBReader._text`: trimmed text of an optional child, empty
string when the child is absent or has falsy text. -/
def textOf (parent : XElem) (tag : String) : String :=
  match parent.findChild tag with
  | some el =>
    match el.text with
    | some t => if t = "" then "" else pyStrip t
    | none => ""
  | none => ""

/-- Method `GAEBReader._decimal`: parse the trimmed child text as a
decimal, `none` when absent, empty or malformed
(`InvalidOperation` is caught and mapped to `None`). -/
def decimalOf (parent : XElem) (tag : String) : Option Dec :=
  let text := textOf parent tag
  if text ≠ "" then pyDecimalOfString text else none

/-- Method `GAEBReader._parse_remarks_raw`: the `Remark` children,
preserved verbatim (`deepcopy` is the identity on tree values). -/
def parseRemarksRaw (body : XElem) : List XElem :=
  body.findAll "Remark"

/-- Method `GAEBReader._parse_add_texts`. -/
def parseAddTexts (parent : XElem) : List AddText :=
  (parent.findAll "AddText").map (fun atElem =>
    let outline :=
      match atElem.findPath ["OutlineAddText", "OutlTxt", "TextOutlTxt"] with
      | some o => some o
      | none => atElem.findChild "OutlineAddText"
    let detail :=
      match atElem.findPath ["DetailAddText", "Text"] with
      | some d => some d
      | none => atElem.findChild "DetailAddText"
    { outline_text := match outline with
        | some o => extractPlainText o
        | none => ""
      outline_html := outline.map extractHtml
      detail_text := match detail with
        | some d => extractPlainText d
        | none => ""
      detail_html := detail.map extractHtml })

/-- Method `GAEBReader._parse_description`. -/
def parseDescription (descElem : XElem) : ItemDescription :=
  let base : ItemDescription :=
    { stl_no := textOf descElem "StLNo"
      stlb_bau_raw := descElem.findChild "STLBBau"
      perf_descr_raw := descElem.findChild "PerfDescr" }
  match descElem.findChild "CompleteText" with
  | some complete =>
    let base := { base with
      compl_tsa := textOf complete "ComplTSA"
      compl_tsb := textOf complete "ComplTSB" }
    let base :=
      match complete.findChild "DetailTxt" with
      | some detailTxt =>
        let base :=
          match detailTxt.findChild "Text" with
          | some detail =>
            { base with
              detail_text := extractPlainText detail
              detail_html := some (extractHtml detail) }
          | none => base
        let base := { base with
          text_complements_raw := detailTxt.findAll "TextComplement" }
        if detailTxt.children.length > 1 then
          { base with detail_txt_raw := some detailTxt }
        else base
      | none => base
    match complete.findPath ["OutlineText", "OutlTxt", "TextOutlTxt"] with
    | some outline =>
      { base with
        outline_text := extractPlainText outline
        outline_html := some (extractHtml outline) }
    | none => base
  | none =>
    match descElem.findPath ["OutlineText", "OutlTxt", "TextOutlTxt"] with
    | some outline =>
      { base with
        outline_text := extractPlainText outline
        outline_html := some (extractHtml outline) }
    | none => base

/-- Method `GAEBReader._parse_item` (regular `Item` elements). -/
def parseItem (itemElem : XElem) : Item :=
  let qtySplits := (itemElem.findAll "QtySplit").map (fun qsElem =>
    let assigns := (qsElem.findAll "CtlgAssign").map (fun caElem =>
      (textOf caElem "CtlgID", textOf caElem "CtlgCode"))
    { qty := decimalOf qsElem "Qty"
      ctlg_assigns := if assigns ≠ [] then some assigns else none
      : QtySplitBag })
  { id := itemElem.getAttr "ID"
    rno_part := itemElem.getAttr "RNoPart"
    qty := decimalOf itemElem "Qty"
    qu := textOf itemElem "QU"
    up := decimalOf itemElem "UP"
    it := decimalOf itemElem "IT"
    vat := decimalOf itemElem "VAT"
    discount_pcnt := decimalOf itemElem "DiscountPcnt"
    pred_qty := decimalOf itemElem "PredQty"
    qty_tbd := textOf itemElem "QtyTBD" = "Yes"
    not_appl := textOf itemElem "NotAppl" = "Yes"
    not_offered := textOf itemElem "NotOffered" = "Yes"
    hour_it := textOf itemElem "HourIt" = "Yes"
    lump_sum_item := textOf itemElem "LumpSumItem" = "Yes"
    up_components :=
      ([1, 2, 3, 4, 5, 6] : List ℕ).filterMap (fun i =>
        match decimalOf itemElem ("UPComp" ++ toString i) with
        | some v => some (i, v)
        | none => none)
    up_bkdn := (itemElem.findChild "UPBkdn").isSome
    provis := textOf itemElem "Provis"
    aln_group_no := textOf itemElem "ALNGroupNo"
    aln_ser_no := textOf itemElem "ALNSerNo"
    free_qty := textOf itemElem "FreeQty" = "Yes"
    key_it := textOf itemElem "KeyIt" = "Yes"
    markup_it := textOf itemElem "MarkupIt" = "Yes"
    surcharge_type :=
      match itemElem.findChild "AddPlIT" with
      | some addPlIt => textOf addPlIt "SurchargeType"
      | none => ""
    surcharge_refs :=
      match itemElem.findChild "AddPlIT" with
      | some addPlIt =>
        ((addPlIt.findAll "AddPlITGrp").map (fun grp => textOf grp "RNoPart")).filter
          (fun rno => rno ≠ "")
      | none => []
    ref_descr :=
      match itemElem.findChild "RefDescr" with
      | some el =>
        match el.text with
        | some t => if t = "" then "Ref" else pyStrip t
        | none => "Ref"
      | none => ""
    ref_rno :=
      match itemElem.findChild "RefRNo" with
      | some el =>
        match el.text with
        | some t => if t = "" then "" else pyStrip t
        | none => ""
      | none => ""
    ref_rno_idref :=
      match itemElem.findChild "RefRNo" with
      | some el => el.getAttr "IDRef"
      | none => ""
    ref_perf_no :=
      match itemElem.findChild "RefPerfNo" with
      | some el =>
        match el.text with
        | some t => if t = "" then "" else pyStrip t
        | none => ""
      | none => ""
    ref_perf_no_idref :=
      match itemElem.findChild "RefPerfNo" with
      | some el => el.getAttr "IDRef"
      | none => ""
    sum_descr := (itemElem.findChild "SumDescr").isSome
    sub_descriptions := (itemElem.findAll "SubDescr").map (fun sdElem =>
      { sub_d_no := textOf sdElem "SubDNo"
        qty := decimalOf sdElem "Qty"
        qty_spec := textOf sdElem "QtySpec"
        qu := textOf sdElem "QU"
        description := (sdElem.findChild "Description").map parseDescription })
    ctlg_assignments := (itemElem.findAll "CtlgAssign").map (fun caElem =>
      { ctlg_id := textOf caElem "CtlgID"
        ctlg_code := textOf caElem "CtlgCode" })
    qty_splits := qtySplits
    description :=
      match itemElem.findChild "Description" with
      | some desc => parseDescription desc
      | none => {}
    add_texts := parseAddTexts itemElem
    bid_comments := (itemElem.findAll "BidComm").filterMap (fun bcElem =>
      (bcElem.findChild "Text").map extractPlainText)
    text_compls := (itemElem.findAll "TextCompl").filterMap (fun tcElem =>
      (tcElem.findChild "Text").map extractPlainText) }

/-- Method `GAEBReader._parse_markup_item` (`MarkupItem` elements). -/
def parseMarkupItem (elem : XElem) : Item :=
  { id := elem.getAttr "ID"
    rno_part := elem.getAttr "RNoPart"
    is_markup_item := true
    markup_type := textOf elem "MarkupType"
    markup_sub_qty_refs :=
      match elem.findChild "MarkupSubQty" with
      | some msq =>
        ((msq.findAll "RefItem").map (fun ref => ref.getAttr "IDRef")).filter
          (fun idRef => idRef ≠ "")
      | none => []
    qty := decimalOf elem "Qty"
    qu := textOf elem "QU"
    up := decimalOf elem "UP"
    it := decimalOf elem "IT"
    it_markup := decimalOf elem "ITMarkup"
    has_markup := (elem.findChild "Markup").isSome
    markup_value :=
      if (elem.findChild "Markup").isSome then decimalOf elem "Markup" else none
    pred_qty := decimalOf elem "PredQty"
    ref_descr :=
      match elem.findChild "RefDescr" with
      | some el =>
        match el.text with
        | some t => if t = "" then "Ref" else pyStrip t
        | none => "Ref"
      | none => ""
    ref_rno :=
      match elem.findChild "RefRNo" with
      | some el =>
        match el.text with
        | some t => if t = "" then "" else pyStrip t
        | none => ""
      | none => ""
    ref_rno_idref :=
      match elem.findChild "RefRNo" with
      | some el => el.getAttr "IDRef"
      | none => ""
    ref_perf_no :=
      match elem.findChild "RefPerfNo" with
      | some el =>
        match el.text with
        | some t => if t = "" then "" else pyStrip t
        | none => ""
      | none => ""
    ref_perf_no_idref :=
      match elem.findChild "RefPerfNo" with
      | some el => el.getAttr "IDRef"
      | none => ""
    ctlg_assignments := (elem.findAll "CtlgAssign").map (fun caElem =>
      { ctlg_id := textOf caElem "CtlgID"
        ctlg_code := textOf caElem "CtlgCode" })
    description :=
      match elem.findChild "Description" with
      | some desc => parseDescription desc
      | none => {}
    add_texts := parseAddTexts elem }

/-- Method `GAEBReader._parse_totals`.  (Python's `self._decimal(...)
or totals.total` takes the dataclass default when the parse fails or
yields the falsy `Decimal(0)`; both give the value `0`.) -/
def parseTotals (totalsElem : XElem) : Totals :=
  { total := (decimalOf totalsElem "Total").getD 0
    discount_pcnt := decimalOf totalsElem "DiscountPcnt"
    discount_amt := decimalOf totalsElem "DiscountAmt"
    tot_after_disc := decimalOf totalsElem "TotAfterDisc"
    total_net := decimalOf totalsElem "TotalNet"
    vat := decimalOf totalsElem "VAT"
    vat_amount := decimalOf totalsElem "VATAmount"
    total_gross := decimalOf totalsElem "TotalGross"
    total_lsum := decimalOf totalsElem "TotalLSUM" }

theorem XElem.mem_children_of_findChild {e c : XElem} {t : String}
    (h : e.findChild t = some c) : c ∈ e.children :=
  List.mem_of_find?_eq_some h

theorem XElem.mem_children_of_mem_findAll {e c : XElem} {t : String}
    (h : c ∈ e.findAll t) : c ∈ e.children :=
  (List.mem_filter.mp h).1

/-- Method `GAEBReader._parse_category`.  Note how the item list is
populated (reader.py lines 294-304): first all `Item` children of the
`Itemlist`, then all `MarkupItem` children. -/
def parseCategory (ctgyElem : XElem) : BoQCategory :=
  let lbl := ctgyElem.findChild "LblTx"
  let execDescr := ctgyElem.findPath ["ExecDescr", "Text"]
  let innerBody := ctgyElem.findChild "BoQBody"
  let subs : List BoQCategory :=
    match h : ctgyElem.findChild "BoQBody" with
    | some body => (body.findAll "BoQCtgy").attach.map (fun c => parseCategory c.1)
    | none => []
  let remarks :=
    match innerBody with
    | some body => parseRemarksRaw body
    | none => []
  let itemlist :=
    match innerBody with
    | some body => body.findChild "Itemlist"
    | none => none
  .mk
    (ctgyElem.getAttr "ID")
    (ctgyElem.getAttr "RNoPart")
    (match lbl with
      | some l => extractPlainText l
      | none => "")
    (lbl.map extractHtml)
    subs
    (match itemlist with
      | some il =>
        (il.findAll "Item").map parseItem ++
          (il.findAll "MarkupItem").map parseMarkupItem
      | none => [])
    (parseAddTexts ctgyElem)
    (match execDescr with
      | some e => extractPlainText e
      | none => "")
    (execDescr.map extractHtml)
    (textOf ctgyElem "ALNBGroupNo")
    (textOf ctgyElem "ALNBSerNo")
    remarks
    (match itemlist with
      | some il => parseRemarksRaw il
      | none => [])
    (match itemlist with
      | some il => il.findAll "PerfDescr"
      | none => [])
    ((ctgyElem.findChild "Totals").map parseTotals)
termination_by sizeOf ctgyElem
decreasing_by
  have h1 : c.1 ∈ body.children := XElem.mem_children_of_mem_findAll c.2
  have h2 : body ∈ ctgyElem.children := XElem.mem_children_of_findChild h
  exact lt_trans (XElem.sizeOf_lt_of_mem_children h1)
    (XElem.sizeOf_lt_of_mem_children h2)

/-- Method `GAEBReader._parse_categories`: one category per `BoQCtgy`
child of the body. -/
def parseCategories (body : XElem) : List BoQCategory :=
  (body.findAll "BoQCtgy").map parseCategory

/-! ## Writer (`gaeb/writer.py`)

Only the item serialization path is embedded (it is what claims about
the writer concern).  `_sub(parent, tag, ns, text)` appends a fresh
child; in the value model an element is built with its final child
list.  Python exceptions escaping the writer are modeled with
`Except`. -/

/-- Python exception escaping an embedded operation. -/
inductive PyError where
  | attributeError
  | keyError
  deriving DecidableEq, Repr

/-- A child element as produced by `GAEBWriter._sub`: tag plus
optional text, no attributes yet. -/
def xsub (tag : String) (txt : Option String := none)
    (children : List XElem := []) (attrs : List (String × String) := []) : XElem :=
  .mk tag attrs txt none children

/-- Set one attribute on an element (`elem.set(name, value)`). -/
def XElem.setAttr (e : XElem) (name value : String) : XElem :=
  .mk e.tag (e.attrs ++ [(name, value)]) e.text e.tail e.children

/-- Append children to an element. -/
def XElem.appendChildren (e : XElem) (cs : List XElem) : XElem :=
  .mk e.tag e.attrs e.text e.tail (e.children ++ cs)

/-- The `p`/`span` line element pair the writer emits for one line of
plain text. -/
def mkLineP (line : String) : XElem :=
  .mk "p" [] none none [.mk "span" [] (some line) none []]

/-- The writer's recurring pattern of one `p`/`span` pair per line of a
plain-text value (`for line in text.split("\n")`). -/
def mkTextLines (text : String) : List XElem :=
  (text.splitOn "\n").map mkLineP

/-- Method `GAEBWriter._write_raw_html`: re-insert a preserved
fragment below `parent`; if the fragment's local root tag equals the
parent's, splice text and children instead of double-wrapping.  In the
tree model preserved fragments are well-formed by construction, so the
`XMLSyntaxError` fallback branch is unreachable. -/
def writeRawHtml (parent : XElem) (fragment : XElem) : XElem :=
  if parent.tag = fragment.tag then
    let newText :=
      match fragment.text with
      | some t => if t = "" then parent.text else some t
      | none => parent.text
    .mk parent.tag parent.attrs newText parent.tail
      (parent.children ++ fragment.children)
  else
    parent.appendChildren [fragment]

/-- Method `GAEBWriter._write_add_texts`: the `AddText` elements
appended below a parent. -/
def writeAddTexts (add_texts : List AddText) : List XElem :=
  add_texts.map (fun at_ =>
    let outlineElems : List XElem :=
      if at_.outline_text ≠ "" then
        match at_.outline_html with
        | some frag => [writeRawHtml (xsub "OutlineAddText") frag]
        | none =>
          [xsub "OutlineAddText" none
            [xsub "OutlTxt" none
              [xsub "TextOutlTxt" none (mkTextLines at_.outline_text)]]]
      else []
    let detailElems : List XElem :=
      if at_.detail_text ≠ "" then
        match at_.detail_html with
        | some frag => [writeRawHtml (xsub "DetailAddText") frag]
        | none =>
          [xsub "DetailAddText" none
            [xsub "Text" none (mkTextLines at_.detail_text)]]
      else []
    xsub "AddText" none (outlineElems ++ detailElems))

/-- Method `GAEBWriter._write_description`: the optional `Description`
element (`none` when the description has no content and the method
returns without appending anything). -/
def writeDescription (desc : ItemDescription) : Option XElem :=
  let hasContent :=
    desc.outline_text ≠ "" ∨ desc.detail_text ≠ "" ∨ desc.stl_no ≠ "" ∨
      desc.stlb_bau_raw.isSome ∨ desc.perf_descr_raw.isSome ∨
      desc.detail_txt_raw.isSome ∨ desc.text_complements_raw.isEmpty = false
  if ¬ hasContent then none
  else
    let stlChildren := if desc.stl_no ≠ "" then [xsub "StLNo" (some desc.stl_no)] else []
    let stlbChildren :=
      match desc.stlb_bau_raw with
      | some raw => [raw]
      | none => []
    let perfChildren :=
      match desc.perf_descr_raw with
      | some raw => [raw]
      | none => []
    let completeChildren : List XElem :=
      if desc.detail_text ≠ "" ∨ desc.outline_text ≠ "" ∨ desc.compl_tsa ≠ "" ∨
          desc.compl_tsb ≠ "" ∨ desc.text_complements_raw.isEmpty = false then
        let tsa := if desc.compl_tsa ≠ "" then [xsub "ComplTSA" (some desc.compl_tsa)] else []
        let tsb := if desc.compl_tsb ≠ "" then [xsub "ComplTSB" (some desc.compl_tsb)] else []
        let detail : List XElem :=
          if desc.detail_text ≠ "" ∨ desc.text_complements_raw.isEmpty = false then
            match desc.detail_txt_raw with
            | some raw => [raw]
            | none =>
              let detailTxtBase :=
                if desc.detail_text ≠ "" then
                  match desc.detail_html with
                  | some frag => writeRawHtml (xsub "DetailTxt") frag
                  | none =>
                    xsub "DetailTxt" none
                      [xsub "Text" none (mkTextLines desc.detail_text)]
                else xsub "DetailTxt"
              [detailTxtBase.appendChildren desc.text_complements_raw]
          else []
        let outline : List XElem :=
          if desc.outline_text ≠ "" then
            let outlTxt :=
              match desc.outline_html with
              | some frag => writeRawHtml (xsub "OutlTxt") frag
              | none =>
                xsub "OutlTxt" none
                  [xsub "TextOutlTxt" none (mkTextLines desc.outline_text)]
            [xsub "OutlineText" none [outlTxt]]
          else []
        [xsub "CompleteText" none (tsa ++ tsb ++ detail ++ outline)]
      else []
    some (xsub "Description" none
      (stlChildren ++ stlbChildren ++ perfChildren ++ completeChildren))

/-- The child sequence built by `GAEBWriter._write_item` before the
bid-comment step (writer.py lines 313-437, sequence points 1-22 of the
XSD order).  `evalF` is the opaque formula evaluator used by
`item.get_effective_qty()`. -/
def writeItemChildren (evalF : String → Option Dec) (rules : PhaseRules)
    (item : Item) : List XElem :=
  -- 1. ALNGroupNo, ALNSerNo
  (if item.aln_group_no ≠ "" then [xsub "ALNGroupNo" (some item.aln_group_no)] else []) ++
  (if item.aln_ser_no ≠ "" then [xsub "ALNSerNo" (some item.aln_ser_no)] else []) ++
  -- 2. Provis
  (if item.provis ≠ "" then [xsub "Provis" (some item.provis)] else []) ++
  -- 3. LumpSumItem
  (if item.lump_sum_item then [xsub "LumpSumItem" (some "Yes")] else []) ++
  -- 4. NotAppl
  (if item.not_appl then [xsub "NotAppl" (some "Yes")] else []) ++
  -- 5. NotOffered
  (if rules.allows_not_offered ∧ item.not_offered then
    [xsub "NotOffered" (some "Yes")] else []) ++
  -- 6. HourIt
  (if item.hour_it then [xsub "HourIt" (some "Yes")] else []) ++
  -- 7. KeyIt
  (if item.key_it then [xsub "KeyIt" (some "Yes")] else []) ++
  -- 8. FreeQty
  (if item.free_qty then [xsub "FreeQty" (some "Yes")] else []) ++
  -- 9. UPBkdn
  (if item.up_bkdn then [xsub "UPBkdn" (some "Yes")] else []) ++
  -- 10. MarkupIt
  (if item.markup_it then [xsub "MarkupIt" (some "Yes")] else []) ++
  -- 11. AddPlIT
  (if item.surcharge_type ≠ "" then
    [xsub "AddPlIT" none
      (xsub "SurchargeType" (some item.surcharge_type) ::
        item.surcharge_refs.map (fun ref =>
          xsub "AddPlITGrp" none [xsub "RNoPart" (some ref)]))]
  else []) ++
  -- 12. RefDescr
  (if item.ref_descr ≠ "" then [xsub "RefDescr" (some item.ref_descr)] else []) ++
  -- 13. RefRNo / RefPerfNo
  (if item.ref_rno ≠ "" ∨ item.ref_rno_idref ≠ "" then
    [let el := xsub "RefRNo" (if item.ref_rno ≠ "" then some item.ref_rno else none)
     if item.ref_rno_idref ≠ "" then el.setAttr "IDRef" item.ref_rno_idref else el]
  else []) ++
  (if item.ref_perf_no ≠ "" ∨ item.ref_perf_no_idref ≠ "" then
    [let el := xsub "RefPerfNo" (if item.ref_perf_no ≠ "" then some item.ref_perf_no else none)
     if item.ref_perf_no_idref ≠ "" then el.setAttr "IDRef" item.ref_perf_no_idref else el]
  else []) ++
  -- 14. QtyTBD / Qty (emitted from the effective quantity; note this
  -- step is not conditioned on rules.has_quantities)
  (if item.qty_tbd then [xsub "QtyTBD" (some "Yes")] else []) ++
  (match item.getEffectiveQty evalF with
    | some q => [xsub "Qty" (some (Dec.repr q))]
    | none => []) ++
  -- 15. QtySplit
  (item.qty_splits.map (fun split =>
    xsub "QtySplit" none
      ((match split.qty with
        | some q => [xsub "Qty" (some (Dec.repr q))]
        | none => []) ++
      (match split.ctlg_assigns with
        | some assigns =>
          assigns.map (fun assign =>
            xsub "CtlgAssign" none
              (xsub "CtlgID" (some assign.1) ::
                (if assign.2 ≠ "" then [xsub "CtlgCode" (some assign.2)] else [])))
        | none =>
          match split.ctlg_id with
          | some cid =>
            [xsub "CtlgAssign" none
              (xsub "CtlgID" (some cid) ::
                (match split.ctlg_code with
                  | some code => [xsub "CtlgCode" (some code)]
                  | none => []))]
          | none => [])))) ++
  -- 16. PredQty
  (match item.pred_qty with
    | some q => [xsub "PredQty" (some (Dec.repr q))]
    | none => []) ++
  -- 17. QU
  (if item.qu ≠ "" then [xsub "QU" (some item.qu)] else []) ++
  -- 18. CtlgAssign
  (item.ctlg_assignments.map (fun ca =>
    xsub "CtlgAssign" none
      ((if ca.ctlg_id ≠ "" then [xsub "CtlgID" (some ca.ctlg_id)] else []) ++
        (if ca.ctlg_code ≠ "" then [xsub "CtlgCode" (some ca.ctlg_code)] else [])))) ++
  -- 19. UP, UPComp1-6, DiscountPcnt (gated by has_prices)
  (if rules.has_prices then
    (match item.up with
      | some u => [xsub "UP" (some (Dec.repr u))]
      | none => []) ++
    (([1, 2, 3, 4, 5, 6] : List ℕ).filterMap (fun i =>
      (item.up_components.find? (fun p => p.1 = i)).map (fun p =>
        xsub ("UPComp" ++ toString i) (some (Dec.repr p.2))))) ++
    (match item.discount_pcnt with
      | some d => [xsub "DiscountPcnt" (some (Dec.repr d))]
      | none => [])
  else []) ++
  -- 20. IT (gated by has_totals)
  (if rules.has_totals then
    match item.it with
    | some v => [xsub "IT" (some (Dec.repr v))]
    | none => []
  else []) ++
  -- 21. VAT
  (match item.vat with
    | some v => [xsub "VAT" (some (Dec.repr v))]
    | none => []) ++
  -- 22. Description
  (match writeDescription item.description with
    | some d => [d]
    | none => [])

/-- Method `GAEBWriter._write_item` (writer.py lines 303-475).  After
the children of sequence points 1-22, line 440 evaluates
`rules.has_bid_comments`; `PhaseRules` declares no such field, so the
attribute lookup decides how (whether) the remaining children are
emitted.  `uuid` stands for the `str(uuid.uuid4())` value used when
the item has no id. -/
def writeItem (evalF : String → Option Dec) (uuid : String)
    (rules : PhaseRules) (item : Item) : Except PyError XElem := do
  let itemId := if item.id ≠ "" then item.id else uuid
  let base := (xsub "Item").setAttr "ID" itemId
  let base := if item.rno_part ≠ "" then base.setAttr "RNoPart" item.rno_part else base
  let children := writeItemChildren evalF rules item
  -- 23. BidComm, TextCompl: `if rules.has_bid_comments:` (line 440)
  let hasBidComments ←
    match rules.lookupBoolAttr "has_bid_comments" with
    | some b => pure b
    | none => throw .attributeError
  let bidChildren : List XElem :=
    if hasBidComments then
      item.bid_comments.map (fun comment =>
        xsub "BidComm" none [xsub "Text" none (mkTextLines comment)]) ++
      item.text_compls.map (fun compl =>
        xsub "TextCompl" none [xsub "Text" none (mkTextLines compl)])
    else []
  -- 24. SumDescr
  let sumChildren := if item.sum_descr then [xsub "SumDescr" (some "Yes")] else []
  -- 25. SubDescr
  let subChildren := item.sub_descriptions.map (fun sd =>
    xsub "SubDescr" none
      ((if sd.sub_d_no ≠ "" then [xsub "SubDNo" (some sd.sub_d_no)] else []) ++
        (match sd.description with
          | some d =>
            match writeDescription d with
            | some el => [el]
            | none => []
          | none => []) ++
        (if sd.qty_spec ≠ "" then [xsub "QtySpec" (some sd.qty_spec)] else []) ++
        (match sd.qty with
          | some q => [xsub "Qty" (some (Dec.repr q))]
          | none => []) ++
        (if sd.qu ≠ "" then [xsub "QU" (some sd.qu)] else [])))
  -- 26. AddText
  let addChildren := writeAddTexts item.add_texts
  return base.appendChildren
    (children ++ bidChildren ++ sumChildren ++ subChildren ++ addChildren)

/-! ## Phase converter (`gaeb/phase_converter.py`)

The converter deep-copies the project and then mutates the copy in
place; in the value model this is explicit rebuild-and-return.  The
German f-string warnings are modeled as structured values carrying
exactly the data interpolated into the message. -/

/-- One human-readable warning emitted by the converter, with the data
its message format interpolates. -/
inductive ConvWarning where
  /-- `"Position {rno_part}: Menge {qty} wurde entfernt"` -/
  | qtyRemoved (rno_part : String) (qty : Dec)
  /-- `"Position {rno_part}: Einheitspreis {up} wurde entfernt"` -/
  | upRemoved (rno_part : String) (up : Dec)
  /-- `"Position {rno_part}: 'Nicht angeboten' Flag wurde entfernt"` -/
  | notOfferedRemoved (rno_part : String)
  /-- `"BoQ-Summen wurden entfernt (Zielphase unterstuetzt keine Summen)"` -/
  | boqTotalsRemoved
  deriving DecidableEq, Repr

/-- Method `PhaseConverter._convert_item` (phase_converter.py lines
93-137): strip quantities, prices, totals and not-offered flags not
supported by the target, then recompute or clear `it` when the target
supports totals. -/
def convertItem (evalF : String → Option Dec) (source target : PhaseRules)
    (item : Item) : Item × List ConvWarning :=
  -- Strip quantities if target does not support them
  let (item, w1) :=
    if source.has_quantities ∧ ¬ target.has_quantities then
      ({ item with qty := none, qty_tbd := false },
        match item.qty with
        | some v => [ConvWarning.qtyRemoved item.rno_part v]
        | none => [])
    else (item, [])
  -- Strip prices if target does not support them
  let (item, w2) :=
    if source.has_prices ∧ ¬ target.has_prices then
      ({ item with up := none, up_components := [], discount_pcnt := none },
        match item.up with
        | some v => [ConvWarning.upRemoved item.rno_part v]
        | none => [])
    else (item, [])
  -- Strip totals if target does not support them (no warning in the source)
  let item :=
    if source.has_totals ∧ ¬ target.has_totals then { item with it := none }
    else item
  -- Strip not_offered flag if target does not support it
  let (item, w3) :=
    if source.allows_not_offered ∧ ¬ target.allows_not_offered then
      ({ item with not_offered := false },
        if item.not_offered then [ConvWarning.notOfferedRemoved item.rno_part]
        else [])
    else (item, [])
  -- Recalculate totals if target supports them
  let item :=
    if target.has_totals then
      if item.qty.isSome ∧ item.up.isSome then
        { item with it := item.calculateTotal evalF }
      else { item with it := none }
    else item
  (item, w1 ++ w2 ++ w3)

/-- The item loop of `PhaseConverter._convert_categories` over one
category's `items` list. -/
def convertItems (evalF : String → Option Dec) (source target : PhaseRules) :
    List Item → List Item × List ConvWarning
  | [] => ([], [])
  | i :: rest =>
    let (i2, w) := convertItem evalF source target i
    let (rest2, ws) := convertItems evalF source target rest
    (i2 :: rest2, w ++ ws)

theorem BoQCategory.sizeOf_subcategories_lt (c : BoQCategory) :
    sizeOf c.subcategories < sizeOf c := by
  cases c with
  | mk a b d e subs f g h i j k l m n o =>
    simp only [BoQCategory.subcategories, BoQCategory.mk.sizeOf_spec]
    omega

mutual

/-- Body of the `_convert_categories` loop for one category: first
recurse into its subcategories, then convert its items (the category
object itself is only traversed). -/
def convertCat (evalF : String → Option Dec) (source target : PhaseRules)
    (cat : BoQCategory) : BoQCategory × List ConvWarning :=
  match cat with
  | .mk a b d e subs items f g h i j k l m n =>
    let (subs2, w1) := convertCats evalF source target subs
    let (items2, w2) := convertItems evalF source target items
    (.mk a b d e subs2 items2 f g h i j k l m n, w1 ++ w2)

/-- Method `PhaseConverter._convert_categories` over a category
list. -/
def convertCats (evalF : String → Option Dec) (source target : PhaseRules) :
    List BoQCategory → List BoQCategory × List ConvWarning
  | [] => ([], [])
  | cat :: rest =>
    let (cat2, w1) := convertCat evalF source target cat
    let (rest2, w2) := convertCats evalF source target rest
    (cat2 :: rest2, w1 ++ w2)

end

/-- Method `PhaseConverter.convert` (phase_converter.py lines 23-53).
Identity short-circuit when the phase already matches; otherwise a
deep copy is converted.  A project whose `phase` is `None` makes
`get_rules` raise `KeyError` (`PHASE_RULES[None]`). -/
def convert (evalF : String → Option Dec) (project : GAEBProject)
    (target : GAEBPhase) : Except PyError (GAEBProject × List ConvWarning) :=
  if project.phase = some target then .ok (project, [])
  else
    match project.phase with
    | none => .error .keyError
    | some src =>
      let sourceRules := getRules src
      let targetRules := getRules target
      let newProject := { project with phase := some target }
      match newProject.boq with
      | some boq =>
        let (cats2, ws) := convertCats evalF sourceRules targetRules boq.categories
        let (info2, ws2) :=
          if ¬ targetRules.has_totals ∧ boq.info.totals.isSome then
            ({ boq.info with totals := none }, [ConvWarning.boqTotalsRemoved])
          else (boq.info, ([] : List ConvWarning))
        .ok ({ newProject with boq := some { boq with categories := cats2, info := info2 } },
          ws ++ ws2)
      | none => .ok (newProject, [])

/-! ## Preisspiegel row construction
(`services/preisspiegel_service.py`, `models/preisspiegel.py`) -/

/-- Dataclass `PreisSpiegelRow` (models/preisspiegel.py). -/
structure PreisSpiegelRow where
  oz : String
  short_text : String
  qty : Option Dec
  qu : String
  unit_prices : List (Option Dec)
  total_prices : List (Option Dec)
  not_offered : List Bool
  min_up : Option Dec := none
  max_up : Option Dec := none
  avg_up : Option Dec := none
  deriving DecidableEq

/-- A bidder's flat `dict[str, Item]` mapping full dotted ordinal to
item (Python dict lookup semantics). -/
abbrev ItemMap := String → Option Item

/-- Python `min(xs)` on a nonempty list, `none` on the empty list. -/
def listMin : List Dec → Option Dec
  | [] => none
  | x :: xs => some (xs.foldl min x)

/-- Python `max(xs)` on a nonempty list, `none` on the empty list. -/
def listMax : List Dec → Option Dec
  | [] => none
  | x :: xs => some (xs.foldl max x)

/-- Function `_build_item_row` (preisspiegel_service.py lines 66-121):
the per-bidder unit price, total price and not-offered columns plus
the min/max/avg statistics over valid unit prices. -/
def buildItemRow (full_oz : String) (refItem : Item)
    (bidderMaps : List ItemMap) : PreisSpiegelRow :=
  let refQty := refItem.qty
  let perBidder : List (Option Dec × Option Dec × Bool) :=
    bidderMaps.map (fun bmap =>
      match bmap full_oz with
      | none => (none, none, false)
      | some bidderItem =>
        if bidderItem.not_offered then (none, none, true)
        else
          let up := bidderItem.up
          let tp : Option Dec :=
            match bidderItem.it with
            | some v => some v
            | none =>
              match up, refQty with
              | some u, some q => some (quantize2 (q * u))
              | _, _ => none
          (up, tp, false))
  let unitPrices := perBidder.map (fun t => t.1)
  let totalPrices := perBidder.map (fun t => t.2.1)
  let notOffered := perBidder.map (fun t => t.2.2)
  let validUps := unitPrices.filterMap id
  { oz := full_oz
    short_text := refItem.description.outline_text
    qty := refQty
    qu := refItem.qu
    unit_prices := unitPrices
    total_prices := totalPrices
    not_offered := notOffered
    min_up := listMin validUps
    max_up := listMax validUps
    avg_up :=
      if validUps.isEmpty then none
      else some (quantize2 (validUps.sum / (validUps.length : ℚ))) }

/-! ## Category totals (`models/category.py`) -/

theorem BoQCategory.sizeOf_lt_of_mem_subcategories {s c : BoQCategory}
    (h : s ∈ c.subcategories) : sizeOf s < sizeOf c :=
  lt_trans (List.sizeOf_lt_of_mem h) c.sizeOf_subcategories_lt

mutual

/-- Method `BoQCategory.calculate_total`: running-sum/`has_any` fold
over item contributions (stored `it` preferred, else
`Item.calculate_total`) and recursive subcategory totals; `None` when
nothing contributed. -/
def BoQCategory.calculateTotal (evalF : String → Option Dec)
    (c : BoQCategory) : Option Dec :=
  match c with
  | .mk a b d e subs items f g h i j k l m n =>
    let afterItems : Dec × Bool :=
      items.foldl (fun acc item =>
        let itemTotal :=
          match item.it with
          | some v => some v
          | none => item.calculateTotal evalF
        match itemTotal with
        | some t => (acc.1 + t, true)
        | none => acc) (0, false)
    let afterSubs := BoQCategory.calcSubsFold evalF subs afterItems
    if afterSubs.2 then some afterSubs.1 else none

/-- The `for sub in self.subcategories` accumulation loop of
`BoQCategory.calculate_total`. -/
def BoQCategory.calcSubsFold (evalF : String → Option Dec) :
    List BoQCategory → Dec × Bool → Dec × Bool
  | [], acc => acc
  | s :: rest, acc =>
    let acc2 :=
      match BoQCategory.calculateTotal evalF s with
      | some t => (acc.1 + t, true)
      | none => acc
    BoQCategory.calcSubsFold evalF rest acc2

end

/-! ## Object-store model of the converter (frame effect)

The value embedding above cannot express "convert never mutates its
input", because Python mutates `Item` objects in place through
references.  Here the same code is embedded once more with object
identity explicit: a store (`Heap.Store`) holds the `Item` objects, a
category tree holds store indices, `deepcopy` allocates fresh cells at
the end of the store, and `_convert_item` becomes an update of the
store at the converted item's index (using `convertItem`, the same
per-item logic as the value embedding). -/

namespace Heap

/-- The Python object store for items: list index = object identity. -/
abbrev Store := List Item

/-- A `BoQCategory` with its `items` list replaced by the store
indices of the item objects (the other category fields are plain
values that the converter never writes). -/
inductive HCategory where
  | mk (rno_part : String) (itemRefs : List ℕ) (subs : List HCategory)

def HCategory.rno_part : HCategory → String
  | .mk v _ _ => v

def HCategory.itemRefs : HCategory → List ℕ
  | .mk _ v _ => v

def HCategory.subs : HCategory → List HCategory
  | .mk _ _ v => v

/-- The BoQ as the converter sees it: its `info.totals` and category
tree. -/
structure HBoQ where
  totals : Option Totals
  cats : List HCategory

/-- The project as the converter sees it: its phase and optional
BoQ. -/
structure HProject where
  phase : Option GAEBPhase := none
  boq : Option HBoQ := none

/-- Allocate a deep copy of each referenced item at the end of the
store (the item-object part of `deepcopy(project)`), returning the
fresh references. -/
def copyItemRefs (σ : Store) : List ℕ → List ℕ × Store
  | [] => ([], σ)
  | r :: rest =>
    let idx := σ.length
    let σ1 := σ ++ [(σ[r]?).getD {}]
    let (rs, σ2) := copyItemRefs σ1 rest
    (idx :: rs, σ2)

mutual

/-- Deep copy of one category: fresh subcategory values and fresh item
objects. -/
def copyCat (σ : Store) (c : HCategory) : HCategory × Store :=
  match c with
  | .mk rno refs subs =>
    let (subs2, σ1) := copyCatList σ subs
    let (refs2, σ2) := copyItemRefs σ1 refs
    (.mk rno refs2 subs2, σ2)

/-- Deep copy of a category list. -/
def copyCatList (σ : Store) : List HCategory → List HCategory × Store
  | [] => ([], σ)
  | c :: rest =>
    let (c2, σ1) := copyCat σ c
    let (rest2, σ2) := copyCatList σ1 rest
    (c2 :: rest2, σ2)

end

theorem HCategory.sizeOf_subs_lt (c : HCategory) : sizeOf c.subs < sizeOf c := by
  cases c with
  | mk r refs subs =>
    simp only [HCategory.subs, HCategory.mk.sizeOf_spec]
    omega

mutual

/-- All item references reachable from one category, in the order
`_convert_categories` visits them (subcategories first, then the
category's own items). -/
def allRefsCat : HCategory → List ℕ
  | .mk _ refs subs => allRefsCats subs ++ refs

/-- All item references reachable from a category list. -/
def allRefsCats : List HCategory → List ℕ
  | [] => []
  | c :: rest => allRefsCat c ++ allRefsCats rest

end

/-- References reachable from a project. -/
def HProject.refs (p : HProject) : List ℕ :=
  match p.boq with
  | some b => allRefsCats b.cats
  | none => []

/-- In-place `_convert_item` over the store: each visited reference is
updated with the converted item. -/
def convertRefs (evalF : String → Option Dec) (source target : PhaseRules)
    (σ : Store) : List ℕ → Store × List ConvWarning
  | [] => (σ, [])
  | r :: rest =>
    let item := (σ[r]?).getD {}
    let (item2, w) := convertItem evalF source target item
    let σ1 := σ.set r item2
    let (σ2, ws) := convertRefs evalF source target σ1 rest
    (σ2, w ++ ws)

/-- `PhaseConverter.convert` in the store model: identity
short-circuit, else deep copy followed by in-place conversion of the
copy's items and clearing of the copy's BoQ totals. -/
def hconvert (evalF : String → Option Dec) (σ : Store) (p : HProject)
    (target : GAEBPhase) : Except PyError (HProject × Store × List ConvWarning) :=
  if p.phase = some target then .ok (p, σ, [])
  else
    match p.phase with
    | none => .error .keyError
    | some src =>
      let sourceRules := getRules src
      let targetRules := getRules target
      match p.boq with
      | some boq =>
        let (cats2, σ1) := copyCatList σ boq.cats
        let (σ2, ws) := convertRefs evalF sourceRules targetRules σ1 (allRefsCats cats2)
        let (tot2, ws2) :=
          if ¬ targetRules.has_totals ∧ boq.totals.isSome then
            (none, [ConvWarning.boqTotalsRemoved])
          else (boq.totals, ([] : List ConvWarning))
        .ok ({ phase := some target, boq := some ⟨tot2, cats2⟩ }, σ2, ws ++ ws2)
      | none => .ok ({ phase := some target, boq := none }, σ, [])

end Heap

/-! ## Helper functions and lemmas for the claim theorems -/

mutual

/-- All items reachable from one category, in the converter's
traversal order (subcategories first, then the category's items). -/
def allItemsCat : BoQCategory → List Item
  | .mk _ _ _ _ subs items _ _ _ _ _ _ _ _ _ => allItemsCats subs ++ items

/-- All items reachable from a category list. -/
def allItemsCats : List BoQCategory → List Item
  | [] => []
  | c :: rest => allItemsCat c ++ allItemsCats rest

end

/-- All items of a project's BoQ. -/
def allItemsProject (p : GAEBProject) : List Item :=
  match p.boq with
  | some b => allItemsCats b.categories
  | none => []

theorem convertItems_spec (evalF : String → Option Dec) (s t : PhaseRules) :
    ∀ l : List Item,
      (convertItems evalF s t l).1 = l.map (fun i => (convertItem evalF s t i).1) ∧
      (convertItems evalF s t l).2 = l.flatMap (fun i => (convertItem evalF s t i).2)
  | [] => by simp [convertItems]
  | i :: rest => by
    have ih := convertItems_spec evalF s t rest
    simp [convertItems, ih.1, ih.2]

mutual

theorem convertCat_spec (evalF : String → Option Dec) (s t : PhaseRules)
    (cat : BoQCategory) :
    allItemsCat (convertCat evalF s t cat).1 =
      (allItemsCat cat).map (fun i => (convertItem evalF s t i).1) ∧
    (convertCat evalF s t cat).2 =
      (allItemsCat cat).flatMap (fun i => (convertItem evalF s t i).2) := by
  match cat with
  | .mk a b d e subs items f g h i j k l m n =>
    have ihsubs := convertCats_spec evalF s t subs
    have hitems := convertItems_spec evalF s t items
    simp only [convertCat, allItemsCat]
    constructor
    · simp [ihsubs.1, hitems.1]
    · simp [ihsubs.2, hitems.2]

theorem convertCats_spec (evalF : String → Option Dec) (s t : PhaseRules)
    (cats : List BoQCategory) :
    allItemsCats (convertCats evalF s t cats).1 =
      (allItemsCats cats).map (fun i => (convertItem evalF s t i).1) ∧
    (convertCats evalF s t cats).2 =
      (allItemsCats cats).flatMap (fun i => (convertItem evalF s t i).2) := by
  match cats with
  | [] => simp [convertCats, allItemsCats]
  | c :: rest =>
    have ihc := convertCat_spec evalF s t c
    have ihrest := convertCats_spec evalF s t rest
    simp only [convertCats, allItemsCats]
    constructor
    · simp [ihc.1, ihrest.1]
    · simp [ihc.2, ihrest.2]

end

/-! ## Claim C1 -/

/-- C1: the claim states that `Writer.write` never fails because of
in-memory data or the phase rule lookup (only `IOError`).  In fact
`GAEBWriter._write_item` unconditionally evaluates
`rules.has_bid_comments` (writer.py line 440) and the frozen dataclass
`PhaseRules` declares no such field, so serializing any regular
(non-markup) item raises `AttributeError`, for every phase and every
item.  The repository's own tests (`test_certification.py` lines
197-211) assert the field exists, so the code contradicts its own
tests: the claim is right and the code is wrong. -/
theorem C1_write_item_always_raises (evalF : String → Option Dec)
    (uuid : String) (phase : GAEBPhase) (item : Item) :
    writeItem evalF uuid (getRules phase) item = .error .attributeError := rfl

/-! ## Claim C2 -/

/-- The X81 project item of the claim's example: `qty` (and prices)
populated in memory. -/
def c2Item : Item :=
  { rno_part := "0010", qty := some 10, qu := "m2", up := some 5, it := some 50 }

/-- C2: the claim states `write` emits no child the phase's rules mark
inapplicable, e.g. an X81 item with `qty` set yields no `Qty` child.
In fact the `Qty`/`QtyTBD` emission in `_write_item` (writer.py lines
378-383) is not gated on `rules.has_quantities` (unlike `NotOffered`,
`UP`, `IT`): with X81 rules the child list for the example item is
exactly `[Qty, QU]` — the `Qty` child is present even though X81 has
`has_quantities = false` (the repository's own test
`test_write_x81_no_quantities_no_prices` expects it stripped). -/
theorem C2_x81_emits_qty_child :
    (getRules GAEBPhase.X81).has_quantities = false ∧
    ((writeItemChildren (fun _ => none) (getRules GAEBPhase.X81) c2Item).map
      XElem.tag) = ["Qty", "QU"] :=
  ⟨rfl, rfl⟩

/-! ## Claim C8 -/

/-- C8: a well-formed document whose decimal-valued item fields
(`Qty`, `UP`, `IT`) hold non-numeric text parses without error and
leaves the corresponding model field `None`.  The embedded
`parseItem` is a total function — the only raising operation in the
source's `_parse_item` path is `Decimal(text)`, whose
`InvalidOperation` is caught inside `_decimal` — so the read
succeeds, and each affected field is `none`. -/
theorem C8_non_numeric_decimal_is_none (itemElem : XElem) :
    (pyDecimalOfString (textOf itemElem "Qty") = none →
      (parseItem itemElem).qty = none) ∧
    (pyDecimalOfString (textOf itemElem "UP") = none →
      (parseItem itemElem).up = none) ∧
    (pyDecimalOfString (textOf itemElem "IT") = none →
      (parseItem itemElem).it = none) := by
  refine ⟨fun h => ?_, fun h => ?_, fun h => ?_⟩ <;>
    · show decimalOf itemElem _ = none
      simp only [decimalOf]
      split_ifs <;> simp [h]

/-- The item element of the claim's example: `<Qty>text</Qty>`. -/
def c8ItemElem : XElem :=
  .mk "Item" [("ID", "i1"), ("RNoPart", "0010")] none none
    [.mk "Qty" [] (some "text") none []]

/-- Witness for C8 at the concrete example element. -/
theorem C8_witness :
    pyDecimalOfString (textOf c8ItemElem "Qty") = none ∧
    (parseItem c8ItemElem).qty = none :=
  ⟨by decide, (C8_non_numeric_decimal_is_none c8ItemElem).1 (by decide)⟩

/-! ## Claim C3 -/

/-- A regular `Item` element with the given ordinal part. -/
def c3ItemElem (rno : String) : XElem :=
  .mk "Item" [("ID", "id-" ++ rno), ("RNoPart", rno)] none none []

/-- A `MarkupItem` element with the given ordinal part. -/
def c3MarkupElem (rno : String) : XElem :=
  .mk "MarkupItem" [("ID", "id-" ++ rno), ("RNoPart", rno)] none none []

/-- An `Itemlist` interleaving Item, MarkupItem, Item in document
order. -/
def c3Itemlist : XElem :=
  .mk "Itemlist" [] none none
    [c3ItemElem "0001", c3MarkupElem "0002", c3ItemElem "0003"]

def c3Body : XElem := .mk "BoQBody" [] none none [c3Itemlist]

def c3CatElem : XElem :=
  .mk "BoQCtgy" [("ID", "c1"), ("RNoPart", "01")] none none [c3Body]

/-- C3 counterexample: the claim states the reader appends `Item` and
`MarkupItem` children to the category's item list in document order,
preserving an interleaving such as Item, MarkupItem, Item as-is.  In
fact `_parse_category` runs `findall("g:Item")` before
`findall("g:MarkupItem")` (reader.py lines 296-299), so the document
order 0001, 0002(markup), 0003 is read back as 0001, 0003,
0002(markup) — not the document order. -/
theorem C3_counterexample :
    (c3Itemlist.children.map (fun c => (c.tag, c.getAttr "RNoPart"))) =
      [("Item", "0001"), ("MarkupItem", "0002"), ("Item", "0003")] ∧
    ((parseCategory c3CatElem).items.map
      (fun i => (i.rno_part, i.is_markup_item))) =
      [("0001", false), ("0003", false), ("0002", true)] ∧
    (parseCategory c3CatElem).items.map Item.rno_part ≠
      c3Itemlist.children.map (fun c => c.getAttr "RNoPart") := by
  refine ⟨by decide, ?_, ?_⟩ <;>
    · rw [parseCategory.eq_def]
      decide

/-- C3 amended: the reader appends to the category's item list first
all `Item` children of the `Itemlist` (each a regular item), in
document order, and then all `MarkupItem` children (each a markup
item), in document order; an interleaving is regrouped, not
preserved. -/
theorem C3_amended_grouped_order (ctgyElem body il : XElem)
    (h1 : ctgyElem.findChild "BoQBody" = some body)
    (h2 : body.findChild "Itemlist" = some il) :
    (parseCategory ctgyElem).items =
      (il.findAll "Item").map parseItem ++
        (il.findAll "MarkupItem").map parseMarkupItem ∧
    (∀ i ∈ (il.findAll "Item").map parseItem, i.is_markup_item = false) ∧
    (∀ i ∈ (il.findAll "MarkupItem").map parseMarkupItem,
      i.is_markup_item = true) := by
  refine ⟨?_, ?_, ?_⟩
  · rw [parseCategory.eq_def]
    simp only [h1, h2, BoQCategory.items]
  · intro i hi
    obtain ⟨e, he, rfl⟩ := List.mem_map.mp hi
    rfl
  · intro i hi
    obtain ⟨e, he, rfl⟩ := List.mem_map.mp hi
    rfl

/-- Witness for the amended C3 at the concrete interleaved
`Itemlist`. -/
theorem C3_amended_witness :
    c3CatElem.findChild "BoQBody" = some c3Body ∧
    c3Body.findChild "Itemlist" = some c3Itemlist ∧
    (parseCategory c3CatElem).items =
      (c3Itemlist.findAll "Item").map parseItem ++
        (c3Itemlist.findAll "MarkupItem").map parseMarkupItem :=
  ⟨rfl, rfl,
    (C3_amended_grouped_order c3CatElem c3Body c3Itemlist rfl rfl).1⟩

/-! ## Claim C5 -/

/-- Quantizing to 2 decimal places is the identity on values that are
already exact hundredths. -/
theorem quantize2_eq_self (q : ℚ) (h : (q * 100).den = 1) : quantize2 q = q := by
  have h1 : ((q * 100).num : ℚ) = q * 100 := by
    conv_rhs => rw [← Rat.num_div_den (q * 100)]
    rw [h]
    simp
  have h2 : Dec.floorZ (q * 100) = (q * 100).num := by
    simp [Dec.floorZ, h]
  have h3 : q * 100 - ((q * 100).num : ℚ) = 0 := by rw [h1]; ring
  simp only [quantize2, roundHalfEven, h2, h3]
  rw [if_pos (by norm_num)]
  rw [h1]
  ring

/-- Quantizing an integer value changes nothing. -/
theorem quantize2_intCast (n : ℤ) : quantize2 (n : ℚ) = n := by
  apply quantize2_eq_self
  have : ((n : ℚ) * 100) = ((n * 100 : ℤ) : ℚ) := by push_cast; ring
  rw [this, Rat.den_intCast]

/-- The recomputed total of the running example: `10 × 5` quantized is
exactly `50`. -/
theorem quantize2_ten_times_five : quantize2 (10 * 5) = 50 := by
  rw [show ((10 : ℚ) * 5) = ((50 : ℤ) : ℚ) by norm_num, quantize2_intCast]
  norm_num

/-- The item of the C5 counterexample: a stale `it` alongside
consistent `qty` and `up`. -/
def c5Item : Item :=
  { rno_part := "0010", qty := some 10, up := some 5, it := some 999 }

def c5Cat : BoQCategory :=
  .mk "c1" "01" "Test" none [] [c5Item] [] "" none "" "" [] [] [] none

def c5Proj : GAEBProject :=
  { phase := some .X84, boq := some { id := "b1", categories := [c5Cat] } }

/-- C5 counterexample: the claim quantifies over every conversion
whose source and target phases are totals-capable, and X84 to X84 is
such a conversion (`convert` accepts it); but the identity
short-circuit (phase_converter.py line 30) returns the input project
unchanged, so the stale `it = 999` survives instead of being
recomputed to `quantize2 (10 × 5) = 50.00`. -/
theorem C5_counterexample :
    (getRules GAEBPhase.X84).has_totals = true ∧
    convert (fun _ => none) c5Proj GAEBPhase.X84 = .ok (c5Proj, []) ∧
    c5Item.qty = some 10 ∧ c5Item.up = some 5 ∧ c5Item.it = some 999 ∧
    (999 : Dec) ≠ quantize2 (10 * 5) := by
  refine ⟨rfl, rfl, rfl, rfl, rfl, ?_⟩
  rw [quantize2_ten_times_five]
  norm_num

set_option maxHeartbeats 1600000 in
/-- Per-item behavior of a conversion between two totals-capable
phases: `qty`, `up` and the effective-quantity inputs survive, and
`it` is recomputed from them (or cleared when `qty` or `up` is
missing), regardless of its previous value. -/
theorem convertItem_totals_capable (evalF : String → Option Dec)
    (src t : GAEBPhase) (i : Item)
    (hs : (getRules src).has_totals = true)
    (ht : (getRules t).has_totals = true) :
    (convertItem evalF (getRules src) (getRules t) i).1.qty = i.qty ∧
    (convertItem evalF (getRules src) (getRules t) i).1.up = i.up ∧
    (convertItem evalF (getRules src) (getRules t) i).1.use_calculated_qty =
      i.use_calculated_qty ∧
    (convertItem evalF (getRules src) (getRules t) i).1.formula = i.formula ∧
    (convertItem evalF (getRules src) (getRules t) i).1.it =
      (if i.qty.isSome ∧ i.up.isSome then i.calculateTotal evalF else none) := by
  have hq : (getRules t).has_quantities = true := by
    cases t <;> simp_all [getRules]
  have hp : (getRules t).has_prices = true := by
    cases t <;> simp_all [getRules]
  by_cases hno : (getRules src).allows_not_offered = true ∧
      (getRules t).allows_not_offered = false <;>
    by_cases hqu : i.qty.isSome = true ∧ i.up.isSome = true <;>
      simp [convertItem, hq, hp, ht, hno, hqu, Item.calculateTotal,
        Item.getEffectiveQty]

/-- C5 amended: for a conversion with a target phase different from
the source phase (so the identity short-circuit does not apply), when
both phases are totals-capable every item of the result has `it`
recomputed: `calculate_total` of its own (unchanged) quantity inputs
when both `qty` and `up` are present, else `None`; and
`calculate_total` of a plain item (no calculated quantity) with
`qty = q` and `up = u` is `q × u` quantized to 2 decimal places. -/
theorem C5_amended_totals_recomputed (evalF : String → Option Dec)
    (p p' : GAEBProject) (src t : GAEBPhase) (ws : List ConvWarning)
    (hsrc : p.phase = some src)
    (hs : (getRules src).has_totals = true)
    (ht : (getRules t).has_totals = true)
    (hne : src ≠ t)
    (h2 : convert evalF p t = .ok (p', ws)) :
    (∀ i ∈ allItemsProject p',
      i.it = (if i.qty.isSome ∧ i.up.isSome then i.calculateTotal evalF
        else none)) ∧
    (∀ (i : Item) (q u : Dec), i.use_calculated_qty = false → i.qty = some q →
      i.up = some u → i.calculateTotal evalF = some (quantize2 (q * u))) := by
  constructor
  · rw [convert] at h2
    rw [hsrc] at h2
    rw [if_neg (show ¬(some src = some t) by simp [hne])] at h2
    cases hb : p.boq with
    | none =>
      simp only [hb] at h2
      obtain ⟨hp', hws⟩ := Prod.mk.injEq .. ▸ (Except.ok.injEq .. ▸ h2)
      intro i hi
      rw [← hp'] at hi
      simp [allItemsProject, hb] at hi
    | some boq =>
      simp only [hb] at h2
      obtain ⟨hp', hws⟩ := Prod.mk.injEq .. ▸ (Except.ok.injEq .. ▸ h2)
      have hspec := convertCats_spec evalF (getRules src) (getRules t)
        boq.categories
      intro i hi
      rw [← hp'] at hi
      simp only [allItemsProject, hb] at hi
      rw [hspec.1] at hi
      obtain ⟨j, hj, rfl⟩ := List.mem_map.mp hi
      obtain ⟨e1, e2, e3, e4, e5⟩ := convertItem_totals_capable evalF src t j hs ht
      rw [e1, e2, e5]
      split_ifs with hc
      · have : ((convertItem evalF (getRules src) (getRules t) j).1.calculateTotal
            evalF) = j.calculateTotal evalF := by
          simp [Item.calculateTotal, Item.getEffectiveQty, e1, e2, e3, e4]
        rw [this]
      · rfl
  · intro i q u hucq hq hu
    simp [Item.calculateTotal, Item.getEffectiveQty, hucq, hq, hu]

/-- The item of the C5 witness: stale `it = 999` with `qty = 10`,
`up = 5`. -/
def c5wItem : Item :=
  { rno_part := "0010", qty := some 10, up := some 5, it := some 999 }

def c5wCat : BoQCategory :=
  .mk "c1" "01" "Test" none [] [c5wItem] [] "" none "" "" [] [] [] none

def c5wProj : GAEBProject :=
  { phase := some .X84, boq := some { id := "b1", categories := [c5wCat] } }

def c5wResultItem : Item :=
  { rno_part := "0010", qty := some 10, up := some 5,
    it := some (quantize2 (10 * 5)) }

def c5wResultCat : BoQCategory :=
  .mk "c1" "01" "Test" none [] [c5wResultItem] [] "" none "" "" [] [] [] none

def c5wResult : GAEBProject :=
  { phase := some .X86, boq := some { id := "b1", categories := [c5wResultCat] } }

/-- Witness for the amended C5: the concrete X84 project converted to
X86 gets `it = 50.00` recomputed from `qty = 10` and `up = 5`,
replacing the stale `999`. -/
theorem C5_amended_witness :
    c5wProj.phase = some GAEBPhase.X84 ∧
    (getRules GAEBPhase.X84).has_totals = true ∧
    (getRules GAEBPhase.X86).has_totals = true ∧
    GAEBPhase.X84 ≠ GAEBPhase.X86 ∧
    convert (fun _ => none) c5wProj GAEBPhase.X86 = .ok (c5wResult, []) ∧
    quantize2 (10 * 5) = 50 ∧
    (∀ i ∈ allItemsProject c5wResult,
      i.it = (if i.qty.isSome ∧ i.up.isSome then
        i.calculateTotal (fun _ => none) else none)) :=
  ⟨rfl, rfl, rfl, by decide, rfl, quantize2_ten_times_five,
    (C5_amended_totals_recomputed (fun _ => none) c5wProj c5wResult
      GAEBPhase.X84 GAEBPhase.X86 [] rfl rfl rfl (by decide) rfl).1⟩

/-! ## Claim C6 -/

/-- C6: the per-bidder columns of a Preisspiegel item row.  For each
bidder index: an absent item gives null prices and a clear
not-offered flag; a present item flagged `not_offered` gives null
prices and a set flag even when a stale `up` is stored; otherwise the
unit price is the bidder's `up` and the total price is the bidder's
`it` when present, else `reference_qty × bidder_up` quantized to 2
decimals when both are available, else null.  The statistics are a
function of only the non-null unit prices, so absent and not-offered
bidders (whose entries are null) are excluded from min/max/avg. -/
theorem C6_bidder_columns (full_oz : String) (refItem : Item)
    (bidderMaps : List ItemMap) (i : ℕ) (h : i < bidderMaps.length) :
    (bidderMaps[i] full_oz = none →
      (buildItemRow full_oz refItem bidderMaps).unit_prices[i]? = some none ∧
      (buildItemRow full_oz refItem bidderMaps).total_prices[i]? = some none ∧
      (buildItemRow full_oz refItem bidderMaps).not_offered[i]? = some false) ∧
    (∀ b : Item, bidderMaps[i] full_oz = some b → b.not_offered = true →
      (buildItemRow full_oz refItem bidderMaps).unit_prices[i]? = some none ∧
      (buildItemRow full_oz refItem bidderMaps).total_prices[i]? = some none ∧
      (buildItemRow full_oz refItem bidderMaps).not_offered[i]? = some true) ∧
    (∀ b : Item, bidderMaps[i] full_oz = some b → b.not_offered = false →
      (buildItemRow full_oz refItem bidderMaps).unit_prices[i]? = some b.up ∧
      (buildItemRow full_oz refItem bidderMaps).total_prices[i]? = some
        (match b.it with
          | some v => some v
          | none =>
            match b.up, refItem.qty with
            | some u, some q => some (quantize2 (q * u))
            | _, _ => none) ∧
      (buildItemRow full_oz refItem bidderMaps).not_offered[i]? = some false) ∧
    ((buildItemRow full_oz refItem bidderMaps).min_up =
      listMin ((buildItemRow full_oz refItem bidderMaps).unit_prices.filterMap id) ∧
    (buildItemRow full_oz refItem bidderMaps).max_up =
      listMax ((buildItemRow full_oz refItem bidderMaps).unit_prices.filterMap id) ∧
    (buildItemRow full_oz refItem bidderMaps).avg_up =
      (if ((buildItemRow full_oz refItem bidderMaps).unit_prices.filterMap id).isEmpty
        then none
        else some (quantize2
          (((buildItemRow full_oz refItem bidderMaps).unit_prices.filterMap id).sum /
            (((buildItemRow full_oz refItem bidderMaps).unit_prices.filterMap id).length : ℚ))))) := by
  refine ⟨?_, ?_, ?_, rfl, rfl, rfl⟩
  · intro hb
    simp [buildItemRow, List.getElem?_map, List.getElem?_eq_getElem h, hb]
  · intro b hb hno
    simp [buildItemRow, List.getElem?_map, List.getElem?_eq_getElem h, hb, hno]
  · intro b hb hno
    simp [buildItemRow, List.getElem?_map, List.getElem?_eq_getElem h, hb, hno]

/-- The not-offered bidder of the C6 witness carries a stale unit
price. -/
def c6StaleItem : Item :=
  { rno_part := "0010", up := some 7, it := some 70, not_offered := true }

def c6NormalItem : Item := { rno_part := "0010", up := some 5 }

def c6RefItem : Item := { rno_part := "0010", qty := some 10, qu := "m2" }

/-- Three bidder maps: one without the position, one not-offered with
a stale price, one with a plain unit price. -/
def c6Maps : List ItemMap :=
  [fun _ => none,
    fun oz => if oz = "01.0010" then some c6StaleItem else none,
    fun oz => if oz = "01.0010" then some c6NormalItem else none]

/-- Witness for C6 at the not-offered bidder with the stale price. -/
theorem C6_witness :
    (1 < c6Maps.length) ∧
    ((c6Maps[1] "01.0010" = none →
      (buildItemRow "01.0010" c6RefItem c6Maps).unit_prices[1]? = some none ∧
      (buildItemRow "01.0010" c6RefItem c6Maps).total_prices[1]? = some none ∧
      (buildItemRow "01.0010" c6RefItem c6Maps).not_offered[1]? = some false) ∧
    (∀ b : Item, c6Maps[1] "01.0010" = some b → b.not_offered = true →
      (buildItemRow "01.0010" c6RefItem c6Maps).unit_prices[1]? = some none ∧
      (buildItemRow "01.0010" c6RefItem c6Maps).total_prices[1]? = some none ∧
      (buildItemRow "01.0010" c6RefItem c6Maps).not_offered[1]? = some true) ∧
    (∀ b : Item, c6Maps[1] "01.0010" = some b → b.not_offered = false →
      (buildItemRow "01.0010" c6RefItem c6Maps).unit_prices[1]? = some b.up ∧
      (buildItemRow "01.0010" c6RefItem c6Maps).total_prices[1]? = some
        (match b.it with
          | some v => some v
          | none =>
            match b.up, c6RefItem.qty with
            | some u, some q => some (quantize2 (q * u))
            | _, _ => none) ∧
      (buildItemRow "01.0010" c6RefItem c6Maps).not_offered[1]? = some false) ∧
    ((buildItemRow "01.0010" c6RefItem c6Maps).min_up =
      listMin ((buildItemRow "01.0010" c6RefItem c6Maps).unit_prices.filterMap id) ∧
    (buildItemRow "01.0010" c6RefItem c6Maps).max_up =
      listMax ((buildItemRow "01.0010" c6RefItem c6Maps).unit_prices.filterMap id) ∧
    (buildItemRow "01.0010" c6RefItem c6Maps).avg_up =
      (if ((buildItemRow "01.0010" c6RefItem c6Maps).unit_prices.filterMap id).isEmpty
        then none
        else some (quantize2
          (((buildItemRow "01.0010" c6RefItem c6Maps).unit_prices.filterMap id).sum /
            (((buildItemRow "01.0010" c6RefItem c6Maps).unit_prices.filterMap id).length : ℚ)))))) :=
  ⟨by decide, C6_bidder_columns "01.0010" c6RefItem c6Maps 1 (by decide)⟩

/-! ## Claim C7 -/

theorem foldl_min_spec (xs : List Dec) (x : Dec) :
    (xs.foldl min x = x ∨ xs.foldl min x ∈ xs) ∧ xs.foldl min x ≤ x ∧
      ∀ y ∈ xs, xs.foldl min x ≤ y := by
  induction xs generalizing x with
  | nil => simp
  | cons y ys ih =>
    simp only [List.foldl_cons]
    obtain ⟨hmem, hle, hall⟩ := ih (min x y)
    refine ⟨?_, ?_, ?_⟩
    · rcases hmem with h1 | h1
      · rcases min_choice x y with hc | hc
        · rw [h1, hc]
          exact Or.inl rfl
        · rw [h1, hc]
          exact Or.inr (List.mem_cons_self y ys)
      · exact Or.inr (List.mem_cons_of_mem y h1)
    · exact le_trans hle (min_le_left x y)
    · intro z hz
      rcases List.mem_cons.mp hz with rfl | hz2
      · exact le_trans hle (min_le_right x z)
      · exact hall z hz2

theorem foldl_max_spec (xs : List Dec) (x : Dec) :
    (xs.foldl max x = x ∨ xs.foldl max x ∈ xs) ∧ x ≤ xs.foldl max x ∧
      ∀ y ∈ xs, y ≤ xs.foldl max x := by
  induction xs generalizing x with
  | nil => simp
  | cons y ys ih =>
    simp only [List.foldl_cons]
    obtain ⟨hmem, hle, hall⟩ := ih (max x y)
    refine ⟨?_, ?_, ?_⟩
    · rcases hmem with h1 | h1
      · rcases max_choice x y with hc | hc
        · rw [h1, hc]
          exact Or.inl rfl
        · rw [h1, hc]
          exact Or.inr (List.mem_cons_self y ys)
      · exact Or.inr (List.mem_cons_of_mem y h1)
    · exact le_trans (le_max_left x y) hle
    · intro z hz
      rcases List.mem_cons.mp hz with rfl | hz2
      · exact le_trans (le_max_right x z) hle
      · exact hall z hz2

theorem listMin_spec (l : List Dec) (h : l ≠ []) :
    ∃ m, listMin l = some m ∧ m ∈ l ∧ ∀ x ∈ l, m ≤ x := by
  match l with
  | [] => exact absurd rfl h
  | x :: xs =>
    obtain ⟨hmem, hle, hall⟩ := foldl_min_spec xs x
    refine ⟨xs.foldl min x, rfl, ?_, ?_⟩
    · rcases hmem with h1 | h1
      · rw [h1]
        exact List.mem_cons_self x xs
      · exact List.mem_cons_of_mem x h1
    · intro z hz
      rcases List.mem_cons.mp hz with rfl | hz2
      · exact hle
      · exact hall z hz2

theorem listMax_spec (l : List Dec) (h : l ≠ []) :
    ∃ m, listMax l = some m ∧ m ∈ l ∧ ∀ x ∈ l, x ≤ m := by
  match l with
  | [] => exact absurd rfl h
  | x :: xs =>
    obtain ⟨hmem, hle, hall⟩ := foldl_max_spec xs x
    refine ⟨xs.foldl max x, rfl, ?_, ?_⟩
    · rcases hmem with h1 | h1
      · rw [h1]
        exact List.mem_cons_self x xs
      · exact List.mem_cons_of_mem x h1
    · intro z hz
      rcases List.mem_cons.mp hz with rfl | hz2
      · exact hle
      · exact hall z hz2

/-- C7: the min/max/avg statistics of a Preisspiegel item row are
computed over exactly the bidders with a non-null unit price: with no
valid price all three are `None`; otherwise `min_up`/`max_up` are a
least/greatest member of the valid prices and `avg_up` is their mean
quantized to 2 decimal places. -/
theorem C7_stats_over_valid_unit_prices (full_oz : String) (refItem : Item)
    (bidderMaps : List ItemMap) (valid : List Dec)
    (hv : valid =
      (buildItemRow full_oz refItem bidderMaps).unit_prices.filterMap id) :
    (valid = [] →
      (buildItemRow full_oz refItem bidderMaps).min_up = none ∧
      (buildItemRow full_oz refItem bidderMaps).max_up = none ∧
      (buildItemRow full_oz refItem bidderMaps).avg_up = none) ∧
    (valid ≠ [] →
      (∃ m, (buildItemRow full_oz refItem bidderMaps).min_up = some m ∧
        m ∈ valid ∧ ∀ x ∈ valid, m ≤ x) ∧
      (∃ m, (buildItemRow full_oz refItem bidderMaps).max_up = some m ∧
        m ∈ valid ∧ ∀ x ∈ valid, x ≤ m) ∧
      (buildItemRow full_oz refItem bidderMaps).avg_up =
        some (quantize2 (valid.sum / (valid.length : ℚ)))) := by
  have hmin : (buildItemRow full_oz refItem bidderMaps).min_up =
      listMin valid := by rw [hv]; rfl
  have hmax : (buildItemRow full_oz refItem bidderMaps).max_up =
      listMax valid := by rw [hv]; rfl
  have havg : (buildItemRow full_oz refItem bidderMaps).avg_up =
      (if valid.isEmpty then none
        else some (quantize2 (valid.sum / (valid.length : ℚ)))) := by
    rw [hv]; rfl
  constructor
  · intro he
    subst he
    simp [hmin, hmax, havg, listMin, listMax]
  · intro hne
    obtain ⟨m1, e1, m1mem, m1le⟩ := listMin_spec valid hne
    obtain ⟨m2, e2, m2mem, m2le⟩ := listMax_spec valid hne
    refine ⟨⟨m1, hmin ▸ e1, m1mem, m1le⟩, ⟨m2, hmax ▸ e2, m2mem, m2le⟩, ?_⟩
    rw [havg, if_neg (by simpa [List.isEmpty_iff] using hne)]

/-- The bidder maps of the C7 witness: two valid unit prices 5.00 and
8.00. -/
def c7Maps : List ItemMap :=
  [fun oz => if oz = "01.0010" then some { rno_part := "0010", up := some 5 }
    else none,
   fun oz => if oz = "01.0010" then some { rno_part := "0010", up := some 8 }
    else none]

def c7RefItem : Item := { rno_part := "0010", qty := some 10, qu := "m2" }

/-- Witness for C7 at two bidders with unit prices 5 and 8: the valid
subset is `[5, 8]` and the statistics exist as the theorem states
(indeed `min = 5`, `max = 8`, `avg = 6.50`). -/
theorem C7_witness :
    ([5, 8] : List Dec) =
      (buildItemRow "01.0010" c7RefItem c7Maps).unit_prices.filterMap id ∧
    (([5, 8] : List Dec) ≠ [] →
      (∃ m, (buildItemRow "01.0010" c7RefItem c7Maps).min_up = some m ∧
        m ∈ ([5, 8] : List Dec) ∧ ∀ x ∈ ([5, 8] : List Dec), m ≤ x) ∧
      (∃ m, (buildItemRow "01.0010" c7RefItem c7Maps).max_up = some m ∧
        m ∈ ([5, 8] : List Dec) ∧ ∀ x ∈ ([5, 8] : List Dec), x ≤ m) ∧
      (buildItemRow "01.0010" c7RefItem c7Maps).avg_up =
        some (quantize2 ((([5, 8] : List Dec)).sum /
          ((([5, 8] : List Dec)).length : ℚ)))) :=
  ⟨by decide,
    (C7_stats_over_valid_unit_prices "01.0010" c7RefItem c7Maps [5, 8]
      (by decide)).2⟩

/-! ## Claim C4 -/

set_option maxHeartbeats 1600000 in
/-- Per-item behavior of the X84 to X81 conversion: all four
quantity/price/total/flag carriers are cleared, and warnings are
emitted for non-null `qty`, non-null `up` and a set `not_offered` flag
— but none for a non-null `it`. -/
theorem convertItem_x84_x81 (evalF : String → Option Dec) (i : Item) :
    (convertItem evalF (getRules .X84) (getRules .X81) i).1.qty = none ∧
    (convertItem evalF (getRules .X84) (getRules .X81) i).1.qty_tbd = false ∧
    (convertItem evalF (getRules .X84) (getRules .X81) i).1.up = none ∧
    (convertItem evalF (getRules .X84) (getRules .X81) i).1.it = none ∧
    (convertItem evalF (getRules .X84) (getRules .X81) i).1.not_offered = false ∧
    (convertItem evalF (getRules .X84) (getRules .X81) i).2.length =
      ((if i.qty.isSome then 1 else 0) + (if i.up.isSome then 1 else 0) +
        (if i.not_offered then 1 else 0)) := by
  cases hq : i.qty <;> cases hu : i.up <;> cases hn : i.not_offered <;>
    simp [convertItem, getRules, hq, hu, hn]

theorem length_flatMap {α β : Type} (l : List α) (f : α → List β) :
    (l.flatMap f).length = (l.map (fun x => (f x).length)).sum := by
  induction l with
  | nil => simp
  | cons x xs ih => simp [ih]

/-- The item of the C4 counterexample: only `it` is populated. -/
def c4Item : Item := { rno_part := "0010", it := some 5 }

def c4Cat : BoQCategory :=
  .mk "c1" "01" "Test" none [] [c4Item] [] "" none "" "" [] [] [] none

def c4Proj : GAEBProject :=
  { phase := some .X84, boq := some { id := "b1", categories := [c4Cat] } }

/-- C4 counterexample: the claim counts a non-null stripped `it` as
one warning; converting an X84 project whose only item carries just
`it = 5` to X81 must then produce exactly one warning — but the code
emits no warning when clearing `it` (phase_converter.py lines
119-121), so the warning list is empty. -/
theorem C4_counterexample :
    c4Item.it = some 5 ∧
    (convert (fun _ => none) c4Proj GAEBPhase.X81).map (fun r => r.2) =
      .ok ([] : List ConvWarning) :=
  ⟨rfl, rfl⟩

/-- C4 amended: converting X84 to X81 clears `qty`, `up`, `it` and
`not_offered` on every item of the result, and the warning list holds
exactly one warning per non-null `qty`, one per non-null `up` and one
per set `not_offered` flag (clearing `it` emits no warning), plus one
BoQ-level warning when `boq.info.totals` was set. -/
theorem C4_amended_strip_and_warnings (evalF : String → Option Dec)
    (p p' : GAEBProject) (ws : List ConvWarning)
    (h1 : p.phase = some GAEBPhase.X84)
    (h2 : convert evalF p GAEBPhase.X81 = .ok (p', ws)) :
    (∀ i ∈ allItemsProject p',
      i.qty = none ∧ i.qty_tbd = false ∧ i.up = none ∧ i.it = none ∧
        i.not_offered = false) ∧
    ws.length =
      ((allItemsProject p).map (fun i =>
        (if i.qty.isSome then 1 else 0) + (if i.up.isSome then 1 else 0) +
          (if i.not_offered then 1 else 0))).sum +
      (match p.boq with
        | some b => if b.info.totals.isSome then 1 else 0
        | none => 0) := by
  rw [convert] at h2
  rw [h1] at h2
  simp only [reduceCtorEq, if_neg, Option.some.injEq, reduceIte] at h2
  cases hb : p.boq with
  | none =>
    simp only [hb] at h2
    obtain ⟨hp', hws⟩ := Prod.mk.injEq .. ▸ (Except.ok.injEq .. ▸ h2)
    constructor
    · intro i hi
      rw [← hp'] at hi
      simp [allItemsProject, hb] at hi
    · rw [← hws]
      simp [allItemsProject, hb]
  | some boq =>
    simp only [hb] at h2
    obtain ⟨hp', hws⟩ := Prod.mk.injEq .. ▸ (Except.ok.injEq .. ▸ h2)
    have hspec := convertCats_spec evalF (getRules .X84) (getRules .X81)
      boq.categories
    constructor
    · intro i hi
      rw [← hp'] at hi
      simp only [allItemsProject, hb] at hi
      rw [hspec.1] at hi
      obtain ⟨j, hj, rfl⟩ := List.mem_map.mp hi
      have := convertItem_x84_x81 evalF j
      exact ⟨this.1, this.2.1, this.2.2.1, this.2.2.2.1, this.2.2.2.2.1⟩
    · rw [← hws]
      simp only [List.length_append, hspec.2, length_flatMap,
        allItemsProject, hb]
      have hmap : (allItemsCats boq.categories).map
          (fun x => (convertItem evalF (getRules .X84) (getRules .X81) x).2.length) =
          (allItemsCats boq.categories).map (fun i =>
            (if i.qty.isSome then 1 else 0) + (if i.up.isSome then 1 else 0) +
              (if i.not_offered then 1 else 0)) :=
        List.map_congr_left (fun j _ => (convertItem_x84_x81 evalF j).2.2.2.2.2)
      rw [hmap]
      have hsnd : (if ¬(getRules GAEBPhase.X81).has_totals = true ∧
            boq.info.totals.isSome = true then
            ({ boq.info with totals := none }, [ConvWarning.boqTotalsRemoved])
          else (boq.info, ([] : List ConvWarning))).2.length =
          (if boq.info.totals.isSome then 1 else 0) := by
        split_ifs with hc hd <;> simp_all [getRules]
      rw [hsnd]

/-- The item of the C4 witness: all three warned values populated. -/
def c4wItem : Item :=
  { rno_part := "0010", qty := some 10, up := some 5, it := some 999,
    not_offered := true }

def c4wCat : BoQCategory :=
  .mk "c1" "01" "Test" none [] [c4wItem] [] "" none "" "" [] [] [] none

def c4wProj : GAEBProject :=
  { phase := some .X84,
    boq := some { id := "b1", info := { totals := some {} },
                  categories := [c4wCat] } }

def c4wResultItem : Item := { rno_part := "0010" }

def c4wResultCat : BoQCategory :=
  .mk "c1" "01" "Test" none [] [c4wResultItem] [] "" none "" "" [] [] [] none

def c4wResult : GAEBProject :=
  { phase := some .X81,
    boq := some { id := "b1", info := {}, categories := [c4wResultCat] } }

def c4wWarnings : List ConvWarning :=
  [.qtyRemoved "0010" 10, .upRemoved "0010" 5, .notOfferedRemoved "0010",
    .boqTotalsRemoved]

/-- Witness for the amended C4: the concrete X84 project loses its
quantity, price, total and flag; three item warnings and the BoQ
totals warning are emitted. -/
theorem C4_amended_witness :
    c4wProj.phase = some GAEBPhase.X84 ∧
    convert (fun _ => none) c4wProj GAEBPhase.X81 = .ok (c4wResult, c4wWarnings) ∧
    (∀ i ∈ allItemsProject c4wResult,
      i.qty = none ∧ i.qty_tbd = false ∧ i.up = none ∧ i.it = none ∧
        i.not_offered = false) ∧
    c4wWarnings.length =
      ((allItemsProject c4wProj).map (fun i =>
        (if i.qty.isSome then 1 else 0) + (if i.up.isSome then 1 else 0) +
          (if i.not_offered then 1 else 0))).sum +
      (match c4wProj.boq with
        | some b => if b.info.totals.isSome then 1 else 0
        | none => 0) :=
  ⟨rfl, rfl,
    (C4_amended_strip_and_warnings (fun _ => none) c4wProj c4wResult
      c4wWarnings rfl rfl).1,
    (C4_amended_strip_and_warnings (fun _ => none) c4wProj c4wResult
      c4wWarnings rfl rfl).2⟩

/-! ## Claim C10 -/

/-- One item's contribution to a category total: the stored `it` when
non-null, else the recomputed `calculate_total` (which is `None` when
`qty × up` is not computable). -/
def itemContrib (evalF : String → Option Dec) (i : Item) : Option Dec :=
  match i.it with
  | some v => some v
  | none => i.calculateTotal evalF

theorem calc_items_fold (evalF : String → Option Dec) :
    ∀ (items : List Item) (a : Dec) (b : Bool),
      items.foldl (fun acc item =>
        let itemTotal :=
          match item.it with
          | some v => some v
          | none => item.calculateTotal evalF
        match itemTotal with
        | some t => (acc.1 + t, true)
        | none => acc) (a, b) =
      (a + (items.filterMap (itemContrib evalF)).sum,
        b || !(items.filterMap (itemContrib evalF)).isEmpty)
  | [], a, b => by simp
  | x :: xs, a, b => by
    rcases hx : itemContrib evalF x with _ | t
    · have hx2 : (match x.it with
          | some v => some v
          | none => x.calculateTotal evalF) = (none : Option Dec) := hx
      simp only [List.foldl_cons, hx2, List.filterMap_cons, hx]
      exact calc_items_fold evalF xs a b
    · have hx2 : (match x.it with
          | some v => some v
          | none => x.calculateTotal evalF) = some t := hx
      simp only [List.foldl_cons, hx2, List.filterMap_cons, hx]
      rw [calc_items_fold evalF xs (a + t) true]
      simp [add_assoc]

theorem calcSubsFold_spec (evalF : String → Option Dec) :
    ∀ (subs : List BoQCategory) (a : Dec) (b : Bool),
      BoQCategory.calcSubsFold evalF subs (a, b) =
      (a + (subs.filterMap (BoQCategory.calculateTotal evalF)).sum,
        b || !(subs.filterMap (BoQCategory.calculateTotal evalF)).isEmpty)
  | [], a, b => by simp [BoQCategory.calcSubsFold]
  | s :: rest, a, b => by
    rcases hs : BoQCategory.calculateTotal evalF s with _ | t
    · simp only [BoQCategory.calcSubsFold, hs, List.filterMap_cons]
      exact calcSubsFold_spec evalF rest a b
    · simp only [BoQCategory.calcSubsFold, hs, List.filterMap_cons]
      rw [calcSubsFold_spec evalF rest (a + t) true]
      simp [add_assoc]

/-- C10: `BoQCategory.calculate_total` returns `None` — not `0.00` —
exactly when neither the items nor the subcategories contribute a
computable total, and otherwise the sum of the contributions, where an
item contributes its stored `it` when non-null and its recomputed
`qty × up` total only as a fallback. -/
theorem C10_category_total_none_or_sum (evalF : String → Option Dec)
    (c : BoQCategory) :
    BoQCategory.calculateTotal evalF c =
      (if (c.items.filterMap (itemContrib evalF) ++
          c.subcategories.filterMap (BoQCategory.calculateTotal evalF)).isEmpty
        then none
        else some ((c.items.filterMap (itemContrib evalF) ++
          c.subcategories.filterMap (BoQCategory.calculateTotal evalF)).sum)) := by
  have hemp : ∀ (l1 l2 : List Dec), (l1 ++ l2).isEmpty = (l1.isEmpty && l2.isEmpty) := by
    intro l1 l2
    cases l1 <;> rfl
  rcases c with ⟨a, b, d, e, subs, items, f, g, h, i, j, k, l, m, n⟩
  show BoQCategory.calculateTotal evalF (.mk a b d e subs items f g h i j k l m n) = _
  rw [BoQCategory.calculateTotal]
  rw [calc_items_fold evalF items 0 false]
  rw [calcSubsFold_spec evalF subs]
  simp only [BoQCategory.items, BoQCategory.subcategories, Bool.false_or]
  rw [hemp]
  cases hI : (items.filterMap (itemContrib evalF)).isEmpty <;>
    cases hS : (subs.filterMap (BoQCategory.calculateTotal evalF)).isEmpty <;>
      simp only [hI, hS, Bool.not_true, Bool.not_false, Bool.false_or,
        Bool.or_true, Bool.or_false, Bool.true_or, Bool.true_and,
        Bool.false_and, Bool.and_true, Bool.and_false, Bool.and_self,
        if_true, if_false, List.sum_append, Option.some.injEq,
        Bool.false_eq_true, Bool.true_eq_false, ite_true, ite_false] <;>
      ring


/-! ## Claim C9 -/

namespace Heap

theorem copyItemRefs_spec :
    ∀ (refs : List ℕ) (σ : Store),
      σ.length ≤ (copyItemRefs σ refs).2.length ∧
      (∀ i, i < σ.length → (copyItemRefs σ refs).2[i]? = σ[i]?) ∧
      (∀ r ∈ (copyItemRefs σ refs).1,
        σ.length ≤ r ∧ r < (copyItemRefs σ refs).2.length)
  | [], σ => by simp [copyItemRefs]
  | r :: rest, σ => by
    obtain ⟨ih1, ih2, ih3⟩ := copyItemRefs_spec rest (σ ++ [(σ[r]?).getD {}])
    have hlen : (σ ++ [(σ[r]?).getD {}]).length = σ.length + 1 := by simp
    simp only [copyItemRefs]
    refine ⟨?_, ?_, ?_⟩
    · omega
    · intro i hi
      rw [ih2 i (by omega)]
      exact List.getElem?_append_left hi
    · intro q hq
      rcases List.mem_cons.mp hq with rfl | hq2
      · exact ⟨le_refl _, by omega⟩
      · obtain ⟨hle, hlt⟩ := ih3 q hq2
        exact ⟨by omega, hlt⟩

mutual

theorem copyCat_spec (σ : Store) (c : HCategory) :
    σ.length ≤ (copyCat σ c).2.length ∧
    (∀ i, i < σ.length → (copyCat σ c).2[i]? = σ[i]?) ∧
    (∀ r ∈ allRefsCat (copyCat σ c).1,
      σ.length ≤ r ∧ r < (copyCat σ c).2.length) := by
  match c with
  | .mk rno refs subs =>
    obtain ⟨ih1, ih2, ih3⟩ := copyCatList_spec σ subs
    obtain ⟨jh1, jh2, jh3⟩ := copyItemRefs_spec refs (copyCatList σ subs).2
    simp only [copyCat, allRefsCat]
    refine ⟨?_, ?_, ?_⟩
    · omega
    · intro i hi
      rw [jh2 i (by omega)]
      exact ih2 i hi
    · intro r hr
      rcases List.mem_append.mp hr with hr2 | hr2
      · obtain ⟨hle, hlt⟩ := ih3 r hr2
        exact ⟨hle, by omega⟩
      · obtain ⟨hle, hlt⟩ := jh3 r hr2
        exact ⟨by omega, hlt⟩

theorem copyCatList_spec (σ : Store) (cats : List HCategory) :
    σ.length ≤ (copyCatList σ cats).2.length ∧
    (∀ i, i < σ.length → (copyCatList σ cats).2[i]? = σ[i]?) ∧
    (∀ r ∈ allRefsCats (copyCatList σ cats).1,
      σ.length ≤ r ∧ r < (copyCatList σ cats).2.length) := by
  match cats with
  | [] => simp [copyCatList, allRefsCats]
  | c :: rest =>
    obtain ⟨ih1, ih2, ih3⟩ := copyCat_spec σ c
    obtain ⟨jh1, jh2, jh3⟩ := copyCatList_spec (copyCat σ c).2 rest
    simp only [copyCatList, allRefsCats]
    refine ⟨?_, ?_, ?_⟩
    · omega
    · intro i hi
      rw [jh2 i (by omega)]
      exact ih2 i hi
    · intro r hr
      rcases List.mem_append.mp hr with hr2 | hr2
      · obtain ⟨hle, hlt⟩ := ih3 r hr2
        exact ⟨hle, by omega⟩
      · obtain ⟨hle, hlt⟩ := jh3 r hr2
        exact ⟨by omega, hlt⟩

end

theorem convertRefs_getElem?_of_not_mem (evalF : String → Option Dec)
    (s t : PhaseRules) :
    ∀ (refs : List ℕ) (σ : Store) (i : ℕ), i ∉ refs →
      ((convertRefs evalF s t σ refs).1)[i]? = σ[i]?
  | [], σ, i, _ => rfl
  | r :: rest, σ, i, h => by
    have hne : i ≠ r := fun he => h (he ▸ List.mem_cons_self r rest)
    have hrest : i ∉ rest := fun hm => h (List.mem_cons_of_mem r hm)
    simp only [convertRefs]
    rw [convertRefs_getElem?_of_not_mem evalF s t rest _ i hrest]
    exact List.getElem?_set_ne (Ne.symm hne)

set_option maxHeartbeats 800000 in
/-- C9: for a target phase different from the project's phase,
`PhaseConverter.convert` returns a distinct deep-copied project and
leaves the input completely unchanged.  In the store embedding: every
item object reachable from the result is a fresh cell distinct from
every item object of the input, and every cell reachable from the
input holds the same item before and after the conversion (the
project, BoQ and category records are immutable values in this
embedding, so the item store is where mutation could show, and it does
not touch the input's cells). -/
theorem C9_convert_deep_copies_and_preserves_input
    (evalF : String → Option Dec) (σ σ2 : Store) (p pr : HProject)
    (src t : GAEBPhase) (ws : List ConvWarning)
    (hsrc : p.phase = some src) (hne : src ≠ t)
    (hwf : ∀ r ∈ p.refs, r < σ.length)
    (hconv : hconvert evalF σ p t = .ok (pr, σ2, ws)) :
    (∀ r ∈ p.refs, σ2[r]? = σ[r]?) ∧
    (∀ r ∈ pr.refs, ∀ q ∈ p.refs, r ≠ q) ∧
    pr.phase = some t := by
  rw [hconvert] at hconv
  rw [hsrc] at hconv
  rw [if_neg (show ¬(some src = some t) by simp [hne])] at hconv
  cases hb : p.boq with
  | none =>
    simp only [hb, Except.ok.injEq, Prod.mk.injEq] at hconv
    obtain ⟨hp, hσ, hw⟩ := hconv
    refine ⟨?_, ?_, ?_⟩
    · intro r _
      rw [← hσ]
    · intro r hr
      rw [← hp] at hr
      simp [HProject.refs] at hr
    · rw [← hp]
  | some boq =>
    obtain ⟨c1, c2, c3⟩ := copyCatList_spec σ boq.cats
    rcases hc : copyCatList σ boq.cats with ⟨cats2, σ1⟩
    rw [hc] at c1 c2 c3
    simp only [hb, hc, Except.ok.injEq, Prod.mk.injEq] at hconv
    obtain ⟨hp, hσ, hw⟩ := hconv
    have hprefs : p.refs = allRefsCats boq.cats := by
      simp [HProject.refs, hb]
    refine ⟨?_, ?_, ?_⟩
    · intro r hr
      have hrlt : r < σ.length := hwf r hr
      have hnotmem : r ∉ allRefsCats cats2 := by
        intro hmem
        have := (c3 r hmem).1
        omega
      rw [← hσ]
      rw [convertRefs_getElem?_of_not_mem evalF (getRules src) (getRules t)
        (allRefsCats cats2) σ1 r hnotmem]
      exact c2 r hrlt
    · intro r hr q hq
      rw [← hp] at hr
      simp only [HProject.refs] at hr
      have hge := (c3 r hr).1
      have hlt := hwf q hq
      omega
    · rw [← hp]

/-- The input item object of the C9 witness. -/
def c9Item : Item :=
  { rno_part := "0010", qty := some 10, up := some 5, it := some 999,
    not_offered := true }

def c9Store : Store := [c9Item]

def c9Proj : HProject :=
  { phase := some .X84, boq := some ⟨none, [HCategory.mk "01" [0] []]⟩ }

def c9Result : HProject :=
  { phase := some .X81, boq := some ⟨none, [HCategory.mk "01" [1] []]⟩ }

def c9Store2 : Store := [c9Item, { rno_part := "0010" }]

def c9Warnings : List ConvWarning :=
  [.qtyRemoved "0010" 10, .upRemoved "0010" 5, .notOfferedRemoved "0010"]

/-- Witness for C9: converting the one-item X84 project to X81
allocates a fresh item cell (reference 1), converts only that cell,
leaves the input's cell (reference 0) unchanged, and the result's
references are disjoint from the input's. -/
theorem C9_witness :
    c9Proj.phase = some GAEBPhase.X84 ∧
    GAEBPhase.X84 ≠ GAEBPhase.X81 ∧
    (∀ r ∈ c9Proj.refs, r < c9Store.length) ∧
    hconvert (fun _ => none) c9Store c9Proj GAEBPhase.X81 =
      .ok (c9Result, c9Store2, c9Warnings) ∧
    (∀ r ∈ c9Proj.refs, c9Store2[r]? = c9Store[r]?) ∧
    (∀ r ∈ c9Result.refs, ∀ q ∈ c9Proj.refs, r ≠ q) ∧
    c9Result.phase = some GAEBPhase.X81 := by
  refine ⟨rfl, by decide, by decide, rfl, ?_, ?_, ?_⟩ <;>
    · have h := C9_convert_deep_copies_and_preserves_input (fun _ => none)
        c9Store c9Store2 c9Proj c9Result GAEBPhase.X84 GAEBPhase.X81
        c9Warnings rfl (by decide) (by decide) rfl
      first
        | exact h.1
        | exact h.2.1
        | exact h.2.2

end Heap

end LVGen
